import Mathlib

/-!
# Verification of the watermark-remover media resolver

Shallow embedding of `backend/main.py` and `backend/parsers/*` (aggregator,
douyin, kuaishou, xiaohongshu, browser_parser).  JSON payloads are modelled
by the inductive `JVal`; Python dictionary access, truthiness, string
`replace`, `max(..., key=...)` and the fallback chain of `parse_link` are
modelled explicitly.
-/

/-- A JSON-like dynamic value, the shape of every payload the parsers
normalise (`resp.json()`, the SSR state blobs, the API responses). -/
inductive JVal where
  | null : JVal
  | bool (b : Bool) : JVal
  | num (n : Int) : JVal
  | str (s : String) : JVal
  | arr (xs : List JVal) : JVal
  | obj (fs : List (String × JVal)) : JVal

namespace JVal

mutual

/-- Decidable equality on `JVal` (the automatic derivation does not handle
the nested `List` occurrences). -/
def decEq : (a b : JVal) → Decidable (a = b)
  | .null, .null => isTrue rfl
  | .bool a, .bool b =>
    match Bool.decEq a b with
    | isTrue h => isTrue (by rw [h])
    | isFalse h => isFalse (by intro hh; cases hh; exact h rfl)
  | .num a, .num b =>
    match Int.decEq a b with
    | isTrue h => isTrue (by rw [h])
    | isFalse h => isFalse (by intro hh; cases hh; exact h rfl)
  | .str a, .str b =>
    match String.decEq a b with
    | isTrue h => isTrue (by rw [h])
    | isFalse h => isFalse (by intro hh; cases hh; exact h rfl)
  | .arr a, .arr b =>
    match decEqList a b with
    | isTrue h => isTrue (by rw [h])
    | isFalse h => isFalse (by intro hh; cases hh; exact h rfl)
  | .obj a, .obj b =>
    match decEqFields a b with
    | isTrue h => isTrue (by rw [h])
    | isFalse h => isFalse (by intro hh; cases hh; exact h rfl)
  | .null, .bool _ | .null, .num _ | .null, .str _ | .null, .arr _ | .null, .obj _
  | .bool _, .null | .bool _, .num _ | .bool _, .str _ | .bool _, .arr _ | .bool _, .obj _
  | .num _, .null | .num _, .bool _ | .num _, .str _ | .num _, .arr _ | .num _, .obj _
  | .str _, .null | .str _, .bool _ | .str _, .num _ | .str _, .arr _ | .str _, .obj _
  | .arr _, .null | .arr _, .bool _ | .arr _, .num _ | .arr _, .str _ | .arr _, .obj _
  | .obj _, .null | .obj _, .bool _ | .obj _, .num _ | .obj _, .str _ | .obj _, .arr _ =>
    isFalse (by intro h; cases h)

/-- Decidable equality on lists of `JVal`. -/
def decEqList : (a b : List JVal) → Decidable (a = b)
  | [], [] => isTrue rfl
  | [], _ :: _ => isFalse (by intro h; cases h)
  | _ :: _, [] => isFalse (by intro h; cases h)
  | x :: xs, y :: ys =>
    match decEq x y, decEqList xs ys with
    | isTrue h1, isTrue h2 => isTrue (by rw [h1, h2])
    | isFalse h1, _ => isFalse (by intro hh; cases hh; exact h1 rfl)
    | _, isFalse h2 => isFalse (by intro hh; cases hh; exact h2 rfl)

/-- Decidable equality on object field lists. -/
def decEqFields : (a b : List (String × JVal)) → Decidable (a = b)
  | [], [] => isTrue rfl
  | [], _ :: _ => isFalse (by intro h; cases h)
  | _ :: _, [] => isFalse (by intro h; cases h)
  | (k, v) :: xs, (k', v') :: ys =>
    match String.decEq k k', decEq v v', decEqFields xs ys with
    | isTrue h0, isTrue h1, isTrue h2 => isTrue (by rw [h0, h1, h2])
    | isFalse h0, _, _ => isFalse (by intro hh; cases hh; exact h0 rfl)
    | _, isFalse h1, _ => isFalse (by intro hh; cases hh; exact h1 rfl)
    | _, _, isFalse h2 => isFalse (by intro hh; cases hh; exact h2 rfl)

end

instance : DecidableEq JVal := decEq

/-- Python truthiness of a JSON value: `None`, `False`, `0`, `""`, `[]`,
`{}` are falsy, everything else truthy. -/
def truthy : JVal → Bool
  | .null => false
  | .bool b => b
  | .num n => n != 0
  | .str s => s != ""
  | .arr xs => !xs.isEmpty
  | .obj fs => !fs.isEmpty

/-- Look a key up in an object (`k in d` / `d[k]`); `none` when the value
is not a dict or the key is absent. -/
def jget : JVal → String → Option JVal
  | .obj fs, k => (fs.find? (fun p => p.1 == k)).map (·.2)
  | _, _ => none

/-- Python `d.get(k, default)` on a dict. -/
def pyGet (d : JVal) (k : String) (dflt : JVal) : JVal :=
  (d.jget k).getD dflt

end JVal

/-- First `some` among `f` applied to at most `cap` leading elements of a
list (Python scanning `for x in l[:cap]`, returning on first hit). -/
def firstSomeCapped (f : JVal → Option JVal) : Nat → List JVal → Option JVal
  | _, [] => none
  | 0, _ :: _ => none
  | cap + 1, x :: rest =>
    match f x with
    | some r => some r
    | none => firstSomeCapped f cap rest

/-- First `some` among `f` applied to the elements of a list (Python
scanning the whole list, returning on first hit). -/
def firstSome (f : JVal → Option JVal) : List JVal → Option JVal
  | [] => none
  | x :: rest =>
    match f x with
    | some r => some r
    | none => firstSome f rest

/-- `BrowserParser._deep_find`, recursion on the remaining fuel
`max_depth + 1 - depth`: fuel `0` means `depth > max_depth` (return
`None` without inspecting the node); a dict containing the key is
returned whole, dict values are scanned in order, lists are scanned up
to their first 30 elements (`obj[:30]`). -/
def deepFindF (key : String) : Nat → JVal → Option JVal
  | 0, _ => none
  | fuel + 1, .obj fs =>
    if fs.any (fun p => p.1 == key) then some (.obj fs)
    else firstSome (deepFindF key fuel) (fs.map Prod.snd)
  | fuel + 1, .arr xs => firstSomeCapped (deepFindF key fuel) 30 xs
  | _ + 1, _ => none

/-- `BrowserParser._deep_find(obj, key, max_depth, depth)`. -/
def deepFind (obj : JVal) (key : String) (maxDepth : Nat := 4) (depth : Nat := 0) :
    Option JVal :=
  deepFindF key (maxDepth + 1 - depth) obj

mutual

/-- `KuaishouParser._find_photo`: unbounded depth-first search for a dict
whose `photoId`/`photo_id` equals the target id.  Unlike `_deep_find`,
there is no depth bound and no list-element cap. -/
def findPhoto (photoId : String) : JVal → Option JVal
  | .obj fs =>
    if (JVal.obj fs).pyGet "photoId" .null = .str photoId
        ∨ (JVal.obj fs).pyGet "photo_id" .null = .str photoId then
      some (.obj fs)
    else
      findPhotoFields photoId fs
  | .arr xs => findPhotoList photoId xs
  | _ => none

/-- `_find_photo` scanning the values of a dict (`for v in obj.values()`). -/
def findPhotoFields (photoId : String) : List (String × JVal) → Option JVal
  | [] => none
  | (_, v) :: rest =>
    match findPhoto photoId v with
    | some r => some r
    | none => findPhotoFields photoId rest

/-- `_find_photo` scanning the items of a list (`for item in obj`). -/
def findPhotoList (photoId : String) : List JVal → Option JVal
  | [] => none
  | x :: rest =>
    match findPhoto photoId x with
    | some r => some r
    | none => findPhotoList photoId rest

end

mutual

/-- Depth-and-width pruning of a JSON tree: `pruneD cap fuel v` keeps the
tree up to depth `fuel` (a node at the cut is replaced by `null`, which
no search inspects) and truncates every list to the scanning budget that
`_deep_find`'s `obj[:cap]` slice grants it.  A search that never
inspects nodes beyond its depth bound or beyond the first `cap` elements
of any list cannot distinguish a tree from its pruning. -/
def pruneD (cap : Nat) : Nat → JVal → JVal
  | 0, _ => .null
  | fuel + 1, .obj fs => .obj (pruneFields cap fuel fs)
  | fuel + 1, .arr xs => .arr (pruneList cap fuel cap xs)
  | _ + 1, .null => .null
  | _ + 1, .bool b => .bool b
  | _ + 1, .num n => .num n
  | _ + 1, .str s => .str s

/-- Pruning applied to every value of an object (keys are kept: they sit
at the object's own depth). -/
def pruneFields (cap : Nat) (fuel : Nat) : List (String × JVal) → List (String × JVal)
  | [] => []
  | (k, v) :: rest => (k, pruneD cap fuel v) :: pruneFields cap fuel rest

/-- Pruning applied to a list: the remaining budget `n` counts down and
the tail past it is dropped, mirroring `obj[:cap]`. -/
def pruneList (cap : Nat) (fuel : Nat) : Nat → List JVal → List JVal
  | _, [] => []
  | 0, _ :: _ => []
  | n + 1, x :: rest => pruneD cap fuel x :: pruneList cap fuel n rest

end

/-- A kuaishou photo node with `photoId = "p"`. -/
def photoLeaf : JVal := .obj [("photoId", .str "p")]

/-- The photo node wrapped in `d` singleton objects: a tree whose only
interesting node sits at depth `d`. -/
def deepNest : Nat → JVal
  | 0 => photoLeaf
  | n + 1 => .obj [("a", deepNest n)]

/-- A list of `n` dummy entries followed by the photo node: the
interesting element sits at index `n`. -/
def wideAt (n : Nat) : JVal :=
  .arr (List.replicate n (.num 0) ++ [photoLeaf])

/-! ## Python `str.replace` (used for the `playwm` → `play` watermark rewrite
and the `/` → `/` unescaping) -/

/-- Fuelled scanner for Python `s.replace(pat, rep)`: any fuel at least
the length of the scanned list gives the replace semantics (scan left to
right, replacing each leftmost non-overlapping occurrence of a non-empty
pattern). -/
def replF (pat rep : List Char) : Nat → List Char → List Char
  | _, [] => []
  | 0, l => l
  | fuel + 1, c :: rest =>
    if pat ≠ [] ∧ pat.isPrefixOf (c :: rest) then
      rep ++ replF pat rep fuel ((c :: rest).drop pat.length)
    else
      c :: replF pat rep fuel rest

/-- Python `s.replace(pat, rep)` on character lists. -/
def replL (pat rep l : List Char) : List Char :=
  replF pat rep l.length l

/-- Python `s.replace(pat, rep)` on strings. -/
def pyReplace (s pat rep : String) : String :=
  ⟨replL pat.data rep.data s.data⟩

/-- The douyin watermark rewrite `url.replace("playwm", "play")`. -/
def stripWatermark (s : String) : String := pyReplace s "playwm" "play"

/-- The `/` unescape `url.replace("\\u002F", "/")` used by the
kuaishou and xiaohongshu regex fallbacks. -/
def unescapeSlash (s : String) : String := pyReplace s "\\u002F" "/"

/-! ## The canonical result record and the `parse_link` fallback chain -/

/-- The dict every parser returns (`title`/`cover`/`video_url`/`images`
may be arbitrary payload-derived values in Python; `platform` and `type`
are always set to literal strings by the parsers). -/
structure PResult where
  title : JVal
  cover : JVal
  video_url : JVal
  images : JVal
  platform : String
  type : String
deriving DecidableEq

/-- `main.parse_link`'s media gate:
`result.get("video_url") or result.get("images")`. -/
def mediaValid (r : PResult) : Bool :=
  r.video_url.truthy || r.images.truthy

/-- The field typing `ParseResponse` (pydantic) enforces before a success
response is produced: `video_url : str | None`, `images : list[str]`,
`title`/`cover` : `str | None`.  A result violating this raises inside
the chain's `try` and is folded into the running diagnostic instead of
being returned. -/
def respOk (r : PResult) : Prop :=
  (r.video_url = .null ∨ ∃ s, r.video_url = .str s) ∧
  (∃ l, r.images = .arr l ∧ ∀ v ∈ l, ∃ s, v = .str s) ∧
  (r.title = .null ∨ ∃ s, r.title = .str s) ∧
  (r.cover = .null ∨ ∃ s, r.cover = .str s)

/-- §3 invariant, without the no-empty-string clause: the `type` tag is
`"video"` or `"images"`; it is `"video"` exactly when `video_url` is a
non-empty string, `"images"` exactly when `images` is a non-empty list;
and the other field is then unpopulated. -/
def invariantCore (r : PResult) : Prop :=
  (r.type = "video" ∨ r.type = "images") ∧
  (r.type = "video" ↔ ∃ s, r.video_url = .str s ∧ s ≠ "") ∧
  (r.type = "images" ↔ ∃ l, r.images = .arr l ∧ l ≠ []) ∧
  (r.type = "video" → r.images = .arr []) ∧
  (r.type = "images" → r.video_url = .null)

/-- §3's no-empty-string clause for the image list. -/
def noEmptyImages (r : PResult) : Prop :=
  ∀ l, r.images = .arr l → JVal.str "" ∉ l

/-- What one strategy's `parse` does for the URL under resolution:
either it returns a result dict, or it raises (`Error(reason)`).
A pydantic `ValidationError` raised while building the success response
is a raise as well. -/
inductive StratOutcome where
  | ok (r : PResult) : StratOutcome
  | fault (msg : String) : StratOutcome

/-- One strategy of `main.PARSERS` as `parse_link` sees it for the URL
under resolution: its class name, its `can_handle(url)` and the outcome
of `parse(url)`. -/
structure Strategy where
  name : String
  canHandle : Bool
  outcome : StratOutcome

/-- `main.parse_link`'s initial `last_error`. -/
def defaultErr : String := "暂不支持该平台，目前支持：抖音、快手、小红书"

/-- `main.parse_link`'s "parsed but no media found" diagnostic. -/
def noMediaErr : String := "解析成功但未找到媒体内容"

/-- Python slicing `s[:n]` on a string (first `n` characters). -/
def strTake (s : String) (n : Nat) : String := ⟨s.data.take n⟩

/-- Python `s.startswith(pre)`. -/
def pyStartsWith (s pre : String) : Bool := pre.data.isPrefixOf s.data

/-- The diagnostic recorded for a raising strategy:
`f"{parser.__name__}: {str(e)[:200]}"`. -/
def faultDiag (name msg : String) : String := name ++ ": " ++ strTake msg 200

/-- The outcome of `parse_link` past the http guard. -/
inductive LinkResult where
  | success (r : PResult) : LinkResult
  | failure (error : String) : LinkResult
deriving DecidableEq

/-- The fallback loop of `main.parse_link` (lines 103–119), instrumented
with the list of invoked (i.e. actually `parse`d) strategy names:
skip strategies whose `can_handle` is false; return the first result
with media; record `noMediaErr` for an empty result and
`name: msg[:200]` for a raise; fail with the last diagnostic. -/
def runChain : List Strategy → String → LinkResult × List String
  | [], lastError => (.failure lastError, [])
  | s :: rest, lastError =>
    if s.canHandle then
      match s.outcome with
      | .ok r =>
        if mediaValid r then (.success r, [s.name])
        else
          let (res, inv) := runChain rest noMediaErr
          (res, s.name :: inv)
      | .fault m =>
        let (res, inv) := runChain rest (faultDiag s.name m)
        (res, s.name :: inv)
    else
      runChain rest lastError

/-- `main.parse_link` past the http-prefix guard. -/
def parseLink (strategies : List Strategy) : LinkResult :=
  (runChain strategies defaultErr).1

/-- The names of the strategies `parse_link` invokes. -/
def invokedNames (strategies : List Strategy) : List String :=
  (runChain strategies defaultErr).2

/-! ## `aggregator.detect_platform` -/

/-- Is `needle` a contiguous sublist of `hay`? -/
def subListB (needle : List Char) : List Char → Bool
  | [] => needle.isEmpty
  | c :: rest => needle.isPrefixOf (c :: rest) || subListB needle rest

/-- Substring containment, Python's `needle in hay` on strings. -/
def strContains (hay needle : String) : Bool :=
  subListB needle.data hay.data

/-- `aggregator.PLATFORM_MAP`, in dict insertion order. -/
def PLATFORM_MAP : List (String × List String) :=
  [("douyin", ["douyin.com", "iesdouyin.com"]),
   ("kuaishou", ["kuaishou.com", "gifshow.com", "chenzhongtech.com"]),
   ("xiaohongshu", ["xiaohongshu.com", "xhslink.com"]),
   ("bilibili", ["bilibili.com", "b23.tv"]),
   ("weibo", ["weibo.com", "weibo.cn"]),
   ("pipixia", ["pipix.com", "h5.pipix.com"]),
   ("tiktok", ["tiktok.com", "vm.tiktok.com"])]

/-- `aggregator.detect_platform`: first platform one of whose domains is
a substring of the URL, else `"unknown"`. -/
def detect_platform (url : String) : String :=
  match PLATFORM_MAP.find? (fun p => p.2.any (fun d => strContains url d)) with
  | some p => p.1
  | none => "unknown"

/-- The spec's §3 closed `PlatformId` enumeration. -/
def specPlatformEnum : List String :=
  ["douyin", "kuaishou", "xiaohongshu", "bilibili", "weibo", "tiktok", "unknown"]

/-- `AggregatorParser.can_handle`: `url.startswith("http")`. -/
def aggregatorCanHandle (url : String) : Bool := pyStartsWith url "http"


/-! ## Python exception monad and dynamic-typing helpers -/

/-- Computations that can raise a Python exception (`AttributeError`,
`TypeError`, `IndexError`, `ValueError`, …); the exception is always
caught at the strategy boundary, so its payload is irrelevant. -/
abbrev PyM (α : Type) : Type := Except Unit α

/-- Raise an exception. -/
def pyRaise {α : Type} : PyM α := .error ()

instance {ε α : Type} [DecidableEq ε] [DecidableEq α] : DecidableEq (Except ε α)
  | .ok a, .ok b =>
    if h : a = b then isTrue (by rw [h]) else isFalse (by intro hh; cases hh; exact h rfl)
  | .error a, .error b =>
    if h : a = b then isTrue (by rw [h]) else isFalse (by intro hh; cases hh; exact h rfl)
  | .ok _, .error _ => isFalse (by intro h; cases h)
  | .error _, .ok _ => isFalse (by intro h; cases h)

/-- Python `d.get(k, dflt)` on a possibly non-dict `d`: raises
`AttributeError` unless `d` is a dict. -/
def mGet (d : JVal) (k : String) (dflt : JVal) : PyM JVal :=
  match d with
  | .obj _ => .ok (d.pyGet k dflt)
  | _ => pyRaise

/-- Python `x[0]`: head of a non-empty list, first character of a
non-empty string, exception otherwise. -/
def pyIndex0 : JVal → PyM JVal
  | .arr (x :: _) => .ok x
  | .str s =>
    match s.data with
    | c :: _ => .ok (.str (String.mk [c]))
    | [] => pyRaise
  | _ => pyRaise

/-- Require a string (for a `.replace` method call). -/
def asStr : JVal → PyM String
  | .str s => .ok s
  | _ => pyRaise

/-- Python `==` on payload values: numbers and booleans compare equal
(`True == 1`, `False == 0`), otherwise structural equality. -/
def pyEq (a b : JVal) : Bool :=
  match a, b with
  | .bool x, .num n => (if x then (1 : Int) else 0) = n
  | .num n, .bool x => n = (if x then (1 : Int) else 0)
  | a', b' => a' = b'

/-- Python `str(v)` (CPython `repr` for containers, `str` for scalars). -/
def jrepr : JVal → String
  | .null => "None"
  | .bool b => if b then "True" else "False"
  | .num n => toString n
  | .str s => "'" ++ s ++ "'"
  | .arr xs => "[" ++ jreprList xs ++ "]"
  | .obj fs => "\x7b" ++ jreprFields fs ++ "\x7d"
where
  jreprList : List JVal → String
    | [] => ""
    | [x] => jrepr x
    | x :: y :: rest => jrepr x ++ ", " ++ jreprList (y :: rest)
  jreprFields : List (String × JVal) → String
    | [] => ""
    | [(k, v)] => "'" ++ k ++ "': " ++ jrepr v
    | (k, v) :: p :: rest => "'" ++ k ++ "': " ++ jrepr v ++ ", " ++ jreprFields (p :: rest)

/-- Python `str(v)` as used in an f-string: a string is interpolated
verbatim, every other value through its `str`/`repr`. -/
def pyStrVal : JVal → String
  | .str s => s
  | v => jrepr v

/-- The key `lambda x: x.get("bit_rate", 0)` of the bitrate selection:
raises unless `x` is a dict whose `bit_rate` (when present) is numeric
(a non-numeric bitrate would raise `TypeError` in the comparison). -/
def bitRateKey (v : JVal) : PyM Int :=
  match v with
  | .obj _ =>
    match v.pyGet "bit_rate" (.num 0) with
    | .num n => .ok n
    | _ => pyRaise
  | _ => pyRaise

/-- `max(rest, ...)` continuation: keep the current best, replacing it
only when a strictly larger key appears (CPython `max` keeps the first
maximal element on ties). -/
def pyMaxGo (best : JVal) (kb : Int) : List JVal → PyM JVal
  | [] => .ok best
  | y :: ys => do
    let ky ← bitRateKey y
    if kb < ky then pyMaxGo y ky ys else pyMaxGo best kb ys

/-- Python `max(bit_rates, key=lambda x: x.get("bit_rate", 0))`. -/
def pyMaxBy : List JVal → PyM JVal
  | [] => pyRaise
  | x :: xs => do
    let kx ← bitRateKey x
    pyMaxGo x kx xs

/-! ## `AggregatorParser` response parsers -/

/-- `covers[0] if covers else ""` (douyin cover resolution). -/
def coverFromList (covers : JVal) : PyM JVal :=
  if covers.truthy then pyIndex0 covers else pure (.str "")

/-- `url_list[0].replace("playwm", "play")` when the url list is truthy,
`""` otherwise (the douyin watermark-free url step). -/
def urlListWatermarkFree (ul : JVal) : PyM JVal :=
  if ul.truthy then do
    let u ← pyIndex0 ul
    let s ← asStr u
    pure (JVal.str (stripWatermark s))
  else pure (.str "")



/-- `_parse_pearktrue`'s image normalisation: strings kept as is, dicts
resolved through `img.get("url", img.get("url_default", ""))`, anything
else skipped. -/
def pearkClean : List JVal → List JVal
  | [] => []
  | .str s :: rest => .str s :: pearkClean rest
  | .obj fs :: rest =>
    (JVal.obj fs).pyGet "url" ((JVal.obj fs).pyGet "url_default" (.str "")) :: pearkClean rest
  | _ :: rest => pearkClean rest

/-- `AggregatorParser._parse_pearktrue(data, platform)`. -/
def parsePearktrue (data : JVal) (platform : String) : PyM (Option PResult) := do
  let code ← mGet data "code" .null
  if ¬ (pyEq code (.num 200) ∨ pyEq code (.num 0) ∨ pyEq code (.str "200")) then
    return none
  let d := data.pyGet "data" data
  let t1 ← mGet d "desc" (.str "")
  let title := d.pyGet "title" t1
  let c1 ← mGet d "thumbnail" (.str "")
  let cover := d.pyGet "cover" c1
  let v2 ← mGet d "video_url" (.str "")
  let v1 ← mGet d "video" v2
  let video_url := d.pyGet "url" v1
  let i2 ← mGet d "image_list" (.arr [])
  let i1 ← mGet d "pics" i2
  let images0 := d.pyGet "images" i1
  if ¬ (title.truthy ∨ video_url.truthy ∨ images0.truthy) then
    return none
  match images0 with
  | .arr (i :: is) =>
    let images := (pearkClean (i :: is)).filter JVal.truthy
    let cover' := if ¬ cover.truthy then (match images with | x :: _ => x | [] => cover) else cover
    return some ⟨if title.truthy then title else .str "未知标题", cover',
      .null, .arr images, platform, "images"⟩
  | _ =>
    if ¬ video_url.truthy then return none
    return some ⟨if title.truthy then title else .str "未知标题", cover,
      video_url, .arr [], platform, "video"⟩

/-- `_parse_generic_v1`'s image normalisation: strings kept, dicts go
through `img.get("url", "")`, anything else skipped. -/
def genericClean : List JVal → List JVal
  | [] => []
  | .str s :: rest => .str s :: genericClean rest
  | .obj fs :: rest => (JVal.obj fs).pyGet "url" (.str "") :: genericClean rest
  | _ :: rest => genericClean rest

/-- `if not cover and images: cover = images[0]` (generic cover
fallback; `images[0]` may raise when `images` is a truthy non-list). -/
def genericCoverFallback (cover images1 : JVal) : PyM JVal :=
  if ¬ cover.truthy then pyIndex0 images1 else pure cover

/-- The membership test `status in (101, 200, 0, True, "200", "101")`. -/
def genericStatusOk (status : JVal) : Bool :=
  pyEq status (.num 101) ∨ pyEq status (.num 200) ∨ pyEq status (.num 0) ∨
  pyEq status (.bool true) ∨ pyEq status (.str "200") ∨ pyEq status (.str "101")

/-- `AggregatorParser._parse_generic_v1(data, platform)`. -/
def parseGenericV1 (data : JVal) (platform : String) : PyM (Option PResult) := do
  let c0 ← mGet data "code" (.num 0)
  let status := data.pyGet "status" c0
  if ¬ genericStatusOk status ∧ data.jget "success" ≠ some (.bool true) then
    return none
  let d := data.pyGet "data" data
  let t2 ← mGet d "desc" (.str "")
  let t1 ← mGet d "work_title" t2
  let title := d.pyGet "title" t1
  let c2 ← mGet d "thumbnail" (.str "")
  let c1 ← mGet d "work_cover" c2
  let cover := d.pyGet "cover" c1
  let v2 ← mGet d "video_url" (.str "")
  let v1 ← mGet d "work_url" v2
  let video_url := d.pyGet "url" v1
  let i2 ← mGet d "image_list" (.arr [])
  let i1 ← mGet d "pics" i2
  let images0 := d.pyGet "images" i1
  if ¬ (title.truthy ∨ video_url.truthy ∨ images0.truthy) then
    return none
  let images1 : JVal :=
    match images0 with
    | .arr (i :: is) => .arr ((genericClean (i :: is)).filter JVal.truthy)
    | x => x
  if images1.truthy then
    let cover' ← genericCoverFallback cover images1
    return some ⟨if title.truthy then title else .str "未知标题", cover',
      .null, images1, platform, "images"⟩
  else
    if ¬ video_url.truthy then return none
    return some ⟨if title.truthy then title else .str "未知标题", cover,
      video_url, .arr [], platform, "video"⟩

/-- `_parse_douyin_wtf`'s gallery loop: dicts contribute
`img["url_list"][0]` when the url list is truthy, strings are appended
verbatim (empty ones included), anything else is skipped. -/
def wtfImgs : List JVal → PyM (List JVal)
  | [] => .ok []
  | .obj fs :: rest => do
    let ul := (JVal.obj fs).pyGet "url_list" (.arr [])
    if ul.truthy then
      let u ← pyIndex0 ul
      let tail ← wtfImgs rest
      return u :: tail
    else
      wtfImgs rest
  | .str s :: rest => do
    let tail ← wtfImgs rest
    return .str s :: tail
  | _ :: rest => wtfImgs rest

/-- The cover resolution of `_parse_douyin_wtf`: a dict cover yields
`url_list[0]` (when truthy), a string cover is taken verbatim, anything
else gives `""`. -/
def wtfCover : JVal → PyM JVal
  | .obj fs => do
    let urls := (JVal.obj fs).pyGet "url_list" (.arr [])
    if urls.truthy then pyIndex0 urls else pure (.str "")
  | .str s => pure (.str s)
  | _ => pure (.str "")

/-- `if image_data and isinstance(image_data, list)`: run the gallery
loop on a non-empty list, else no images. -/
def wtfImagesOf : JVal → PyM (List JVal)
  | .arr (x :: xs) => wtfImgs (x :: xs)
  | _ => pure []

/-- The `bit_rate` fallback of `_parse_douyin_wtf` (and of
`DouyinParser._fetch_detail`): pick the best variant by bitrate and
rewrite its first url; keep `dflt` when the variant has no urls. -/
def bitrateWatermarkFree (video_data : JVal) (dflt : JVal) : PyM JVal := do
  let brs ← mGet video_data "bit_rate" (.arr [])
  if brs.truthy then
    match brs with
    | .arr l => do
      let best ← pyMaxBy l
      let pb ← mGet best "play_addr" (.obj [])
      let urlsB ← mGet pb "url_list" (.arr [])
      if urlsB.truthy then do
        let u ← pyIndex0 urlsB
        let s ← asStr u
        pure (JVal.str (stripWatermark s))
      else pure dflt
    | _ => pyRaise
  else pure dflt

/-- The video-url resolution of `_parse_douyin_wtf`: `play_addr`'s
first url rewritten, falling back to the best `bit_rate` variant. -/
def wtfVideoUrl : JVal → PyM JVal
  | .obj fs => do
    let play ← mGet (.obj fs) "play_addr" (.obj [])
    let urls ← mGet play "url_list" (.arr [])
    let vu1 ← urlListWatermarkFree urls
    if ¬ vu1.truthy then bitrateWatermarkFree (.obj fs) vu1
    else pure vu1
  | _ => pure (.str "")

/-- `AggregatorParser._parse_douyin_wtf(data, platform)`. -/
def parseDouyinWtf (data : JVal) (platform : String) : PyM (Option PResult) := do
  let code ← mGet data "code" .null
  if ¬ pyEq code (.num 200) ∧ ¬ pyEq (data.pyGet "status" .null) (.str "success") then
    return none
  let d := data.pyGet "data" data
  if ¬ d.truthy then return none
  let t1 ← mGet d "title" (.str "")
  let title := d.pyGet "desc" t1
  let v0 ← mGet d "video" (.obj [])
  let cDflt ← mGet v0 "cover" (.obj [])
  let cover_data := d.pyGet "cover" cDflt
  let cover ← wtfCover cover_data
  let ip ← mGet d "image_post_info" (.obj [])
  let iDflt ← mGet ip "images" (.arr [])
  let image_data := d.pyGet "images" iDflt
  let images ← wtfImagesOf image_data
  match images with
  | i :: is =>
    let cover' := if ¬ cover.truthy then i else cover
    return some ⟨if title.truthy then title else .str "未知标题", cover',
      .null, .arr (i :: is), platform, "images"⟩
  | [] =>
    let video_data := d.pyGet "video" (.obj [])
    let video_url ← wtfVideoUrl video_data
    if ¬ video_url.truthy then return none
    return some ⟨if title.truthy then title else .str "未知标题", cover,
      video_url, .arr [], platform, "video"⟩

/-! ## `DouyinParser._fetch_detail` (the pure normalisation of the detail
API response body) -/

/-- The gallery loop of `_fetch_detail`: each entry must answer
`img.get("url_list", [])` (a non-dict raises); a truthy url list
contributes its first element, empty string or not. -/
def douyinImgs : List JVal → PyM (List JVal)
  | [] => .ok []
  | img :: rest => do
    let ul ← mGet img "url_list" (.arr [])
    if ul.truthy then
      let u ← pyIndex0 ul
      let tail ← douyinImgs rest
      return u :: tail
    else
      douyinImgs rest

/-- `if not video_url:` — the `bit_rate` fallback of `_fetch_detail`
(the same normalisation as `bitrateWatermarkFree`, reading the item's
`video` object). -/
def douyinVideoFallback (v0 vu1 : JVal) : PyM JVal :=
  if ¬ vu1.truthy then bitrateWatermarkFree v0 vu1 else pure vu1

/-- `DouyinParser._fetch_detail`, applied to the decoded JSON body of the
`iteminfo` endpoint (the function raises `ValueError` when `item_list`
is empty). -/
def douyinFetchDetail (data : JVal) : PyM PResult := do
  let items ← mGet data "item_list" (.arr [])
  if ¬ items.truthy then pyRaise
  let item ← pyIndex0 items
  let desc ← mGet item "desc" (.str "抖音视频")
  let v0 ← mGet item "video" (.obj [])
  let c0 ← mGet v0 "cover" (.obj [])
  let covers ← mGet c0 "url_list" (.arr [])
  let cover ← coverFromList covers
  let images_data := item.pyGet "images" .null
  if images_data.truthy then
    match images_data with
    | .arr l => do
      let image_urls ← douyinImgs l
      return ⟨desc, cover, .null, .arr image_urls, "douyin", "images"⟩
    | _ => pyRaise
  else
    let play ← mGet v0 "play_addr" (.obj [])
    let url_list ← mGet play "url_list" (.arr [])
    let vu1 ← urlListWatermarkFree url_list
    let video_url ← douyinVideoFallback v0 vu1
    return ⟨desc, cover, if video_url.truthy then video_url else .null,
      .arr [], "douyin", "video"⟩

/-! ## `KuaishouParser._extract_from_state` and the regex fallback -/

/-- The gallery comprehension of `_extract_from_state`:
`[p.get("cdn_image_url", p.get("url", "")) for p in ext_photos if isinstance(p, dict)]`
(no truthiness filter — empty strings are kept). -/
def ksImgList : List JVal → List JVal
  | [] => []
  | .obj fs :: rest =>
    (JVal.obj fs).pyGet "cdn_image_url" ((JVal.obj fs).pyGet "url" (.str "")) :: ksImgList rest
  | _ :: rest => ksImgList rest

/-- Iterating `ext_photos` when it is truthy: a list is traversed, a
dict yields its (string) keys and a string its characters — neither is a
dict so the comprehension is empty — and anything else raises
`TypeError`. -/
def ksImgs : JVal → PyM (List JVal)
  | .arr l => .ok (ksImgList l)
  | .obj _ => .ok []
  | .str _ => .ok []
  | _ => pyRaise

/-- The `for key in data` loop of `_extract_from_state`: the first
value that is a dict with a `photo` key yields that `photo` entry;
otherwise, when the photo id occurs in the value's `str()` rendering,
`_find_photo` is attempted and a hit breaks the loop. -/
def ksScan (photoId : String) : List (String × JVal) → Option JVal
  | [] => none
  | (_, v) :: rest =>
    match v with
    | .obj vfs =>
      if vfs.any (fun p => p.1 == "photo") then
        (JVal.obj vfs).jget "photo"
      else if strContains (jrepr (.obj vfs)) photoId then
        match findPhoto photoId (.obj vfs) with
        | some p => some p
        | none => ksScan photoId rest
      else ksScan photoId rest
    | _ => ksScan photoId rest

/-- `KuaishouParser._extract_from_state(data, photo_id)`. -/
def kuaishouExtract (data : JVal) (photoId : String) : PyM (Option PResult) := do
  match data with
  | .obj fs =>
    match ksScan photoId fs with
    | none => return none
    | some photo =>
      if ¬ photo.truthy then return none
      let t0 ← mGet photo "desc" (.str "快手视频")
      let title := photo.pyGet "caption" t0
      let cover :=
        if (photo.pyGet "coverUrl" .null).truthy then photo.pyGet "coverUrl" .null
        else if (photo.pyGet "poster" .null).truthy then photo.pyGet "poster" .null
        else if (photo.pyGet "webpCoverUrl" .null).truthy then photo.pyGet "webpCoverUrl" .null
        else .str ""
      let video_url := photo.pyGet "srcNoMark" (photo.pyGet "photoUrl" (.str ""))
      let ext := photo.pyGet "ext_photo_list" (photo.pyGet "images" (.arr []))
      if ext.truthy ∧ ¬ video_url.truthy then
        let images ← ksImgs ext
        return some ⟨title, cover, .null, .arr images, "kuaishou", "images"⟩
      else
        return some ⟨title, cover, if video_url.truthy then video_url else .null,
          .arr [], "kuaishou", "video"⟩
  | _ => pyRaise

/-- `KuaishouParser._parse_page_data`'s regex fallback (lines 94–132),
as a function of the regex match results: `captionM` is the `caption`
capture (may be empty), `coverM` the `poster`/`coverUrl` capture,
`videoM` the first video-pattern capture, `imgMatches` the
`cdn_image_url` (or else `imageUrl`) `findall` captures; the video and
image patterns all require an `https?://…` form. -/
def kuaishouParsePageFallback (captionM coverM videoM : Option String)
    (imgMatches : List String) : PResult :=
  let title := captionM.getD "快手视频"
  let cover := coverM.getD ""
  let video_url := (videoM.map unescapeSlash).getD ""
  if ¬ imgMatches.isEmpty ∧ video_url = "" then
    ⟨.str title, .str cover, .null, .arr (imgMatches.map (fun u => .str (unescapeSlash u))),
      "kuaishou", "images"⟩
  else
    ⟨.str title, .str cover, if video_url = "" then .null else .str video_url,
      .arr [], "kuaishou", "video"⟩

/-! ## `XiaohongshuParser._extract_from_state` and `_find_note` -/

/-- `XiaohongshuParser._find_note` with fuel `9 - depth` (the recursion
stops once `depth > 8`); lists are scanned up to their first 50
elements. -/
def findNoteF (noteId : String) : Nat → JVal → Option JVal
  | 0, _ => none
  | fuel + 1, .obj fs =>
    if ((JVal.obj fs).pyGet "noteId" .null = .str noteId
          ∨ (JVal.obj fs).pyGet "id" .null = .str noteId)
        ∧ (fs.any (fun p => p.1 == "title") ∨ fs.any (fun p => p.1 == "desc")
          ∨ fs.any (fun p => p.1 == "imageList")) then
      some (.obj fs)
    else
      firstSome (findNoteF noteId fuel) (fs.map Prod.snd)
  | fuel + 1, .arr xs => firstSomeCapped (findNoteF noteId fuel) 50 xs
  | _ + 1, _ => none

/-- `XiaohongshuParser._find_note(obj, note_id)` from depth 0. -/
def findNote (noteId : String) (obj : JVal) : Option JVal :=
  findNoteF noteId 9 obj

/-- The image loop of `XiaohongshuParser._extract_from_state`: dict
entries resolve `urlDefault` / `url` / `original` by truthiness; a
truthy resolved url must be a string (`.replace` is called on it) and is
unescaped; falsy urls and non-dict entries are dropped. -/
def xhsImgs : List JVal → PyM (List JVal)
  | [] => .ok []
  | .obj fs :: rest => do
    let u :=
      if ((JVal.obj fs).pyGet "urlDefault" .null).truthy then (JVal.obj fs).pyGet "urlDefault" .null
      else if ((JVal.obj fs).pyGet "url" .null).truthy then (JVal.obj fs).pyGet "url" .null
      else if ((JVal.obj fs).pyGet "original" .null).truthy then (JVal.obj fs).pyGet "original" .null
      else .str ""
    if u.truthy then
      let s ← asStr u
      let tail ← xhsImgs rest
      return .str (unescapeSlash s) :: tail
    else
      xhsImgs rest
  | _ :: rest => xhsImgs rest

/-- The inner stream scan: the first dict entry with a truthy
`masterUrl`/`url` gives the video url (unescaped; must be a string). -/
def xhsStreamScan : List JVal → PyM (Option String)
  | [] => .ok none
  | .obj fs :: rest =>
    let m := (JVal.obj fs).pyGet "masterUrl" ((JVal.obj fs).pyGet "url" (.str ""))
    if m.truthy then do
      let s ← asStr m
      return some (unescapeSlash s)
    else
      xhsStreamScan rest
  | _ :: rest => xhsStreamScan rest

/-- The `for quality in ["h264", "h265", "av1"]` loop over
`stream.get(quality, [])`. -/
def xhsStreams (stream : JVal) : List String → PyM (Option String)
  | [] => .ok none
  | q :: qs => do
    let streams ← mGet stream q (.arr [])
    match streams with
    | .arr l => do
      match ← xhsStreamScan l with
      | some u => return some u
      | none => xhsStreams stream qs
    | _ => xhsStreams stream qs

/-- The `note_map` resolution of `_extract_from_state`
(`… or data.get("noteDetail", {}).get("noteDetailMap", {})`). -/
def xhsNoteMapFallback (data m1 : JVal) : PyM JVal :=
  if m1.truthy then pure m1
  else do
    let n2 ← mGet data "noteDetail" (.obj [])
    mGet n2 "noteDetailMap" (.obj [])

/-- `detail = note_map.get(note_id, {}); note = detail.get("note", detail)`
when the note map is truthy; `None` otherwise. -/
def xhsNote0 (note_map : JVal) (noteId : String) : PyM JVal :=
  if note_map.truthy then do
    let detail ← mGet note_map noteId (.obj [])
    mGet detail "note" detail
  else pure .null

/-- `if isinstance(image_list, list)`: run the image loop. -/
def xhsImagesOf : JVal → PyM (List JVal)
  | .arr l => xhsImgs l
  | _ => pure []

/-- The video-url resolution of `XiaohongshuParser._extract_from_state`:
codec streams first, then `originVideoKey`. -/
def xhsVideoUrl : JVal → PyM (Option String)
  | .obj vfs =>
    if (JVal.obj vfs).truthy then do
      let media ← mGet (.obj vfs) "media" (.obj [])
      let stream ← mGet media "stream" (.obj [])
      let vu ← xhsStreams stream ["h264", "h265", "av1"]
      match vu with
      | some u => pure (some u)
      | none =>
        let vkey := (JVal.obj vfs).pyGet "originVideoKey" (.str "")
        if vkey.truthy then
          pure (some ("https://sns-video-bd.xhscdn.com/" ++ pyStrVal vkey))
        else pure none
    else pure none
  | _ => pure none

/-- `XiaohongshuParser._extract_from_state(data, note_id)`. -/
def xhsExtract (data : JVal) (noteId : String) : PyM (Option PResult) := do
  let n1 ← mGet data "note" (.obj [])
  let m1 ← mGet n1 "noteDetailMap" (.obj [])
  let note_map ← xhsNoteMapFallback data m1
  let note0 ← xhsNote0 note_map noteId
  let note := if note0.truthy then note0 else (findNote noteId data).getD .null
  match note with
  | .obj nfs =>
    if ¬ (JVal.obj nfs).truthy then return none
    let note := JVal.obj nfs
    let t0 ← mGet note "desc" (.str "小红书笔记")
    let title := note.pyGet "title" t0
    let image_list := note.pyGet "imageList" (note.pyGet "images" (.arr []))
    let images ← xhsImagesOf image_list
    let cover := match images with | i :: _ => i | [] => .str ""
    let video_data := note.pyGet "video" (.obj [])
    let video_url ← xhsVideoUrl video_data
    let content_type := match video_url with | some _ => "video" | none => "images"
    return some ⟨title, cover,
      (match video_url with | some u => .str u | none => .null),
      (if content_type = "images" then .arr images else .arr []),
      "xiaohongshu", content_type⟩
  | _ => return none

/-- Order-preserving deduplication (the `seen` set of
`XiaohongshuParser._parse_page`'s image collection). -/
def dedupKeepFirst : List String → List String
  | [] => []
  | x :: rest => x :: (dedupKeepFirst rest).filter (fun y => y ≠ x)

/-- `XiaohongshuParser._parse_page`'s regex fallback (lines 114–169), as
a function of the regex results: `titleInit` is the title resolved from
the `<title>` tag (or the placeholder), `descM` the `desc` capture (may
be empty), `imgFound` the first non-empty `findall` of the three image
patterns, `videoKeyM` the `originVideoKey` capture, `videoPatM` the
first video-url pattern capture. -/
def xhsParsePageFallback (titleInit : String) (descM : Option String)
    (imgFound : List String) (videoKeyM videoPatM : Option String) : PResult :=
  let title := match descM with
    | some d => if d ≠ "" then d else titleInit
    | none => titleInit
  let images := dedupKeepFirst (imgFound.map unescapeSlash)
  let vc : Option String × String := match videoKeyM with
    | some k => (some ("https://sns-video-bd.xhscdn.com/" ++ k), "video")
    | none => match videoPatM with
      | some v => (some (unescapeSlash v), "video")
      | none => (none, "images")
  let cover := match images with | i :: _ => i | [] => ""
  ⟨.str title, .str cover,
    (match vc.1 with | some u => .str u | none => .null),
    (if vc.2 = "images" then .arr (images.map JVal.str) else .arr []),
    "xiaohongshu", vc.2⟩

/-! ## `BrowserParser` state extractors and DOM fallbacks -/

/-- `_extract_xhs_from_state`'s image loop: dict entries resolve
`urlDefault` / `url` / `original` by truthiness and a truthy resolved
value is appended as is (no string conversion); others dropped. -/
def bxhsImgs : List JVal → List JVal
  | [] => []
  | .obj fs :: rest =>
    let u :=
      if ((JVal.obj fs).pyGet "urlDefault" .null).truthy then (JVal.obj fs).pyGet "urlDefault" .null
      else if ((JVal.obj fs).pyGet "url" .null).truthy then (JVal.obj fs).pyGet "url" .null
      else if ((JVal.obj fs).pyGet "original" .null).truthy then (JVal.obj fs).pyGet "original" .null
      else .str ""
    if u.truthy then u :: bxhsImgs rest else bxhsImgs rest
  | _ :: rest => bxhsImgs rest

/-- `_extract_xhs_from_state`'s inner stream scan: the first dict entry
with a truthy `masterUrl`/`url` is taken verbatim. -/
def bxhsStreamScan : List JVal → Option JVal
  | [] => none
  | .obj fs :: rest =>
    let m := (JVal.obj fs).pyGet "masterUrl" ((JVal.obj fs).pyGet "url" (.str ""))
    if m.truthy then some m else bxhsStreamScan rest
  | _ :: rest => bxhsStreamScan rest

/-- The codec loop of `_extract_xhs_from_state`. -/
def bxhsStreams (stream : JVal) : List String → PyM (Option JVal)
  | [] => .ok none
  | q :: qs => do
    let streams ← mGet stream q (.arr [])
    match streams with
    | .arr l =>
      match bxhsStreamScan l with
      | some u => return some u
      | none => bxhsStreams stream qs
    | _ => bxhsStreams stream qs

/-- The note-data resolution of `_extract_xhs_from_state`: the
`noteData.data` value when truthy, else the first entry of
`note.noteDetailMap` (whose value must answer `.get`). -/
def bxhsNoteData (data nd1 : JVal) : PyM JVal :=
  if nd1.truthy then pure nd1
  else do
    let nm0 ← mGet data "note" (.obj [])
    let note_map ← mGet nm0 "noteDetailMap" (.obj [])
    if note_map.truthy then
      match note_map with
      | .obj ((_, v) :: _) => mGet v "note" (.obj [])
      | _ => pyRaise
    else pure nd1

/-- The video-url resolution of `_extract_xhs_from_state`: codec
streams first (urls taken verbatim, no unescape), then
`originVideoKey`. -/
def bxhsVideoUrl : JVal → PyM JVal
  | .obj vfs =>
    if (JVal.obj vfs).truthy then do
      let media ← mGet (.obj vfs) "media" (.obj [])
      let stream ← mGet media "stream" (.obj [])
      let vu ← bxhsStreams stream ["h264", "h265", "av1"]
      match vu with
      | some u => pure u
      | none =>
        let vkey := (JVal.obj vfs).pyGet "originVideoKey" (.str "")
        if vkey.truthy then
          pure (JVal.str ("https://sns-video-bd.xhscdn.com/" ++ pyStrVal vkey))
        else pure .null
    else pure .null
  | _ => pure .null

/-- `BrowserParser._extract_xhs_from_state(data, platform)`. -/
def browserXhsExtract (data : JVal) (platform : String) : PyM (Option PResult) := do
  let nd0 ← mGet data "noteData" (.obj [])
  let nd1 ← mGet nd0 "data" (.obj [])
  let note_data ← bxhsNoteData data nd1
  if ¬ note_data.truthy then return none
  let tD ← mGet note_data "desc" (.str "")
  let title := note_data.pyGet "title" tD
  if ¬ title.truthy then return none
  let image_list := note_data.pyGet "imageList" (.arr [])
  let images := match image_list with
    | .arr l => bxhsImgs l
    | _ => []
  let video_data := note_data.pyGet "video" (.obj [])
  let video_url ← bxhsVideoUrl video_data
  let content_type := if video_url.truthy then "video" else "images"
  let cover := match images with | i :: _ => i | [] => .str ""
  return some ⟨if title.truthy then title else .str "小红书笔记", cover,
    (if content_type = "video" then video_url else .null),
    (if content_type = "images" then .arr images else .arr []),
    platform, content_type⟩

/-- `BrowserParser._scrape_xhs_dom`'s Python side, as a function of the
in-page script's result `{title, images, videoUrl}` (the script pushes
only truthy `src` values and yields `videoUrl` as a src string or
`null`). -/
def scrapeXhsDom (title : String) (images : List String) (videoUrl : Option String)
    (platform : String) : PResult :=
  let video_url : JVal := match videoUrl with | some v => .str v | none => .null
  let content_type := if video_url.truthy then "video" else "images"
  ⟨.str title, (match images with | i :: _ => .str i | [] => .str ""),
    video_url,
    (if content_type = "images" then .arr (images.map JVal.str) else .arr []),
    platform, content_type⟩

/-- The `for key in ["itemInfo", "videoData", "aweme"]` loop of
`_extract_douyin_from_state`: the first key present breaks the loop,
descending into `itemStruct` when the value is a dict containing it. -/
def bdScanKeys (state : JVal) : List String → Option JVal
  | [] => none
  | k :: ks =>
    match state.jget k with
    | some v =>
      match v with
      | .obj vfs =>
        if vfs.any (fun p => p.1 == "itemStruct") then (JVal.obj vfs).jget "itemStruct"
        else some v
      | _ => some v
    | none => bdScanKeys state ks

/-- `_extract_douyin_from_state`'s gallery loop: dict entries with a
truthy `url_list` contribute its first element; others skipped. -/
def bdImgs : List JVal → PyM (List JVal)
  | [] => .ok []
  | .obj fs :: rest => do
    let ul := (JVal.obj fs).pyGet "url_list" (.arr [])
    if ul.truthy then
      let u ← pyIndex0 ul
      let tail ← bdImgs rest
      return u :: tail
    else
      bdImgs rest
  | _ :: rest => bdImgs rest

/-- The item scan over a dict state; a non-dict state raises (the
`key in state` / `state[key]` steps assume the page script handed over
a JSON object). -/
def bdItem0 (state : JVal) : PyM (Option JVal) :=
  match state with
  | .obj _ => pure (bdScanKeys state ["itemInfo", "videoData", "aweme"])
  | _ => pyRaise

/-- `if images_data and isinstance(images_data, list)`: run the gallery
loop on a non-empty list. -/
def bdImagesOf : JVal → PyM (List JVal)
  | .arr (x :: xs) => bdImgs (x :: xs)
  | _ => pure []

/-- `BrowserParser._extract_douyin_from_state(state, platform)`; the
`key in state` membership tests assume a dict state (the page scripts
hand over a JSON object). -/
def browserDouyinExtract (state : JVal) (platform : String) : PyM (Option PResult) := do
  let item0 ← bdItem0 state
  let item := match item0 with
    | some it => if it.truthy then it else (deepFind state "desc" 4 0).getD .null
    | none => (deepFind state "desc" 4 0).getD .null
  if ¬ item.truthy then return none
  let t0 ← mGet item "title" (.str "")
  let title := item.pyGet "desc" t0
  let v0 ← mGet item "video" (.obj [])
  let c0 ← mGet v0 "cover" (.obj [])
  let covers ← mGet c0 "url_list" (.arr [])
  let cover ← coverFromList covers
  let images_data := item.pyGet "images" (.arr [])
  let images ← bdImagesOf images_data
  match images with
  | i :: is =>
    let cover' := if cover.truthy then cover else i
    return some ⟨if title.truthy then title else .str "抖音图集", cover',
      .null, .arr (i :: is), platform, "images"⟩
  | [] =>
    let play ← mGet v0 "play_addr" (.obj [])
    let urls ← mGet play "url_list" (.arr [])
    let video_url ← urlListWatermarkFree urls
    return some ⟨if title.truthy then title else .str "抖音视频", cover,
      (if video_url.truthy then video_url else .null), .arr [], platform, "video"⟩

/-- `BrowserParser._parse_douyin`'s DOM fallback, as a function of the
in-page script's `{title, videoUrl, images}` (images pushed only for
truthy `src`, `videoUrl` a src string or `null`). -/
def browserDouyinDom (title : String) (images : List String) (videoUrl : Option String)
    (platform : String) : PResult :=
  let video_url : JVal := match videoUrl with | some v => .str v | none => .null
  let content_type := if video_url.truthy then "video" else "images"
  ⟨.str title, (match images with | i :: _ => .str i | [] => .str ""),
    video_url,
    (if content_type = "images" then .arr (images.map JVal.str) else .arr []),
    platform, content_type⟩

/-- `BrowserParser._extract_ks_from_state`'s gallery comprehension
(`cdn_image_url` / `url` for dict entries). -/
def bksImgs : List JVal → List JVal
  | [] => []
  | .obj fs :: rest =>
    (JVal.obj fs).pyGet "cdn_image_url" ((JVal.obj fs).pyGet "url" (.str "")) :: bksImgs rest
  | _ :: rest => bksImgs rest

/-- `BrowserParser._extract_ks_from_state(state, platform)`. -/
def browserKsExtract (state : JVal) (platform : String) : PyM (Option PResult) := do
  let photo0 := match deepFind state "caption" 5 0 with
    | some p => some p
    | none => deepFind state "srcNoMark" 5 0
  match photo0 with
  | none => return none
  | some photo => do
    let t0 ← mGet photo "desc" (.str "快手视频")
    let title := photo.pyGet "caption" t0
    let video_url := photo.pyGet "srcNoMark" (photo.pyGet "photoUrl" (.str ""))
    let cover := photo.pyGet "coverUrl" (photo.pyGet "poster" (.str ""))
    let ext := photo.pyGet "ext_photo_list" (photo.pyGet "images" (.arr []))
    let images := match ext with
      | .arr l =>
        if ¬ l.isEmpty ∧ ¬ video_url.truthy then (bksImgs l).filter JVal.truthy
        else []
      | _ => []
    let content_type := if ¬ images.isEmpty ∧ ¬ video_url.truthy then "images" else "video"
    return some ⟨title, cover,
      (if video_url.truthy then video_url else .null),
      (if content_type = "images" then .arr images else .arr []),
      platform, content_type⟩

/-- `BrowserParser._parse_kuaishou`'s DOM fallback. -/
def browserKsDom (title : String) (videoUrl : Option String) (platform : String) : PResult :=
  ⟨.str title, .str "",
    (match videoUrl with | some v => .str v | none => .null),
    .arr [], platform, "video"⟩

/-! ## Chain lemmas -/

/-- A strategy that `parse_link` would accept: applicable, parses
without raising and yields media. -/
def validStrategy (t : Strategy) : Prop :=
  t.canHandle = true ∧ ∃ r, t.outcome = .ok r ∧ mediaValid r = true

/-- The diagnostic `parse_link` records for an applicable strategy that
does not produce media. -/
def strategyDiag (t : Strategy) : String :=
  match t.outcome with
  | .ok _ => noMediaErr
  | .fault m => faultDiag t.name m

theorem runChain_nil (le : String) : runChain [] le = (.failure le, []) := rfl

theorem runChain_cons_skip (s : Strategy) (rest : List Strategy) (le : String)
    (h : s.canHandle = false) : runChain (s :: rest) le = runChain rest le := by
  simp [runChain, h]

theorem runChain_cons_ok_valid (s : Strategy) (rest : List Strategy) (le : String)
    (r : PResult) (hc : s.canHandle = true) (ho : s.outcome = .ok r)
    (hm : mediaValid r = true) :
    runChain (s :: rest) le = (.success r, [s.name]) := by
  simp [runChain, hc, ho, hm]

theorem runChain_cons_ok_invalid (s : Strategy) (rest : List Strategy) (le : String)
    (r : PResult) (hc : s.canHandle = true) (ho : s.outcome = .ok r)
    (hm : mediaValid r = false) :
    runChain (s :: rest) le =
      ((runChain rest noMediaErr).1, s.name :: (runChain rest noMediaErr).2) := by
  simp [runChain, hc, ho, hm]

theorem runChain_cons_fault (s : Strategy) (rest : List Strategy) (le : String)
    (m : String) (hc : s.canHandle = true) (ho : s.outcome = .fault m) :
    runChain (s :: rest) le =
      ((runChain rest (faultDiag s.name m)).1, s.name :: (runChain rest (faultDiag s.name m)).2) := by
  simp [runChain, hc, ho]

/-- An applicable strategy that is not valid steps the chain to the tail
with its diagnostic as the new `last_error`. -/
theorem runChain_cons_invalid (s : Strategy) (rest : List Strategy) (le : String)
    (hc : s.canHandle = true) (hinv : ¬ validStrategy s) :
    runChain (s :: rest) le =
      ((runChain rest (strategyDiag s)).1, s.name :: (runChain rest (strategyDiag s)).2) := by
  cases ho : s.outcome with
  | ok r =>
    have hm : mediaValid r = false := by
      by_contra hm
      exact hinv ⟨hc, r, ho, by revert hm; cases mediaValid r <;> simp⟩
    rw [runChain_cons_ok_invalid s rest le r hc ho hm]
    simp [strategyDiag, ho]
  | fault m =>
    rw [runChain_cons_fault s rest le m hc ho]
    simp [strategyDiag, ho]

theorem runChain_all_skip (l : List Strategy) (le : String)
    (h : ∀ t ∈ l, t.canHandle = false) :
    runChain l le = (.failure le, []) := by
  induction l with
  | nil => rfl
  | cons s rest ih =>
    rw [runChain_cons_skip s rest le (h s (List.mem_cons_self s rest))]
    exact ih (fun t ht => h t (List.mem_cons_of_mem s ht))

theorem runChain_first_valid (pre : List Strategy) (s : Strategy) (post : List Strategy)
    (le : String) (r : PResult)
    (hpre : ∀ t ∈ pre, ¬ validStrategy t)
    (hs : s.canHandle = true) (hok : s.outcome = .ok r) (hmv : mediaValid r = true) :
    runChain (pre ++ s :: post) le =
      (.success r, (pre.filter (fun t => t.canHandle)).map (fun t => t.name) ++ [s.name]) := by
  induction pre generalizing le with
  | nil =>
    rw [List.nil_append, runChain_cons_ok_valid s post le r hs hok hmv]
    rfl
  | cons p pre ih =>
    have hp : ¬ validStrategy p := hpre p (List.mem_cons_self p pre)
    have hpre' : ∀ t ∈ pre, ¬ validStrategy t :=
      fun t ht => hpre t (List.mem_cons_of_mem p ht)
    by_cases hc : p.canHandle = true
    · rw [List.cons_append, runChain_cons_invalid p (pre ++ s :: post) le hc hp,
        ih (strategyDiag p) hpre']
      simp [List.filter_cons, hc]
    · have hc' : p.canHandle = false := by revert hc; cases p.canHandle <;> simp
      rw [List.cons_append, runChain_cons_skip p (pre ++ s :: post) le hc',
        ih le hpre']
      simp [List.filter_cons, hc']

theorem runChain_err_cases (l : List Strategy) (le : String) (e : String)
    (h : (runChain l le).1 = .failure e) :
    e = le ∨ e = noMediaErr ∨ ∃ n m, e = faultDiag n m := by
  induction l generalizing le with
  | nil =>
    rw [runChain_nil] at h
    exact Or.inl (LinkResult.failure.inj h).symm
  | cons s rest ih =>
    by_cases hc : s.canHandle = true
    · cases ho : s.outcome with
      | ok r =>
        by_cases hm : mediaValid r = true
        · rw [runChain_cons_ok_valid s rest le r hc ho hm] at h
          cases h
        · have hm' : mediaValid r = false := by revert hm; cases mediaValid r <;> simp
          rw [runChain_cons_ok_invalid s rest le r hc ho hm'] at h
          rcases ih noMediaErr h with h1 | h2 | h3
          · exact Or.inr (Or.inl h1)
          · exact Or.inr (Or.inl h2)
          · exact Or.inr (Or.inr h3)
      | fault m =>
        rw [runChain_cons_fault s rest le m hc ho] at h
        rcases ih (faultDiag s.name m) h with h1 | h2 | h3
        · exact Or.inr (Or.inr ⟨s.name, m, h1⟩)
        · exact Or.inr (Or.inl h2)
        · exact Or.inr (Or.inr h3)
    · have hc' : s.canHandle = false := by revert hc; cases s.canHandle <;> simp
      rw [runChain_cons_skip s rest le hc'] at h
      exact ih le h

theorem runChain_err_applicable (l : List Strategy) (le : String) (e : String)
    (happ : ∃ t ∈ l, t.canHandle = true)
    (h : (runChain l le).1 = .failure e) :
    e = noMediaErr ∨ ∃ n m, e = faultDiag n m := by
  induction l generalizing le with
  | nil => rcases happ with ⟨t, ht, _⟩; cases ht
  | cons s rest ih =>
    by_cases hc : s.canHandle = true
    · cases ho : s.outcome with
      | ok r =>
        by_cases hm : mediaValid r = true
        · rw [runChain_cons_ok_valid s rest le r hc ho hm] at h
          cases h
        · have hm' : mediaValid r = false := by revert hm; cases mediaValid r <;> simp
          rw [runChain_cons_ok_invalid s rest le r hc ho hm'] at h
          rcases runChain_err_cases rest noMediaErr e h with h1 | h2 | h3
          · exact Or.inl h1
          · exact Or.inl h2
          · exact Or.inr h3
      | fault m =>
        rw [runChain_cons_fault s rest le m hc ho] at h
        rcases runChain_err_cases rest (faultDiag s.name m) e h with h1 | h2 | h3
        · exact Or.inr ⟨s.name, m, h1⟩
        · exact Or.inl h2
        · exact Or.inr h3
    · have hc' : s.canHandle = false := by revert hc; cases s.canHandle <;> simp
      rw [runChain_cons_skip s rest le hc'] at h
      rcases happ with ⟨t, ht, hth⟩
      rcases List.mem_cons.mp ht with rfl | htr
      · rw [hth] at hc'; cases hc'
      · exact ih le ⟨t, htr, hth⟩ h

theorem runChain_last_applicable (pre : List Strategy) (t : Strategy) (post : List Strategy)
    (le : String)
    (hinv : ∀ q ∈ pre ++ t :: post, ¬ validStrategy q)
    (ht : t.canHandle = true)
    (hpost : ∀ q ∈ post, q.canHandle = false) :
    (runChain (pre ++ t :: post) le).1 = .failure (strategyDiag t) := by
  induction pre generalizing le with
  | nil =>
    have htinv : ¬ validStrategy t := hinv t (by simp)
    rw [List.nil_append, runChain_cons_invalid t post le ht htinv,
      runChain_all_skip post (strategyDiag t) hpost]
  | cons p pre ih =>
    have hp : ¬ validStrategy p := hinv p (List.mem_cons_self p _)
    have hinv' : ∀ q ∈ pre ++ t :: post, ¬ validStrategy q :=
      fun q hq => hinv q (List.mem_cons_of_mem p hq)
    by_cases hc : p.canHandle = true
    · rw [List.cons_append, runChain_cons_invalid p (pre ++ t :: post) le hc hp]
      exact ih (strategyDiag p) hinv'
    · have hc' : p.canHandle = false := by revert hc; cases p.canHandle <;> simp
      rw [List.cons_append, runChain_cons_skip p (pre ++ t :: post) le hc']
      exact ih le hinv'

/-! ## C4, C9, C10: the fallback chain -/

/-- C4: the fallback chain short-circuits — when strategy `s` is the
first applicable strategy whose parse yields a result with media
(non-empty `video_url` or `images`), exactly the applicable strategies
up to and including `s` are invoked (none after `s`), and `s`'s result
is returned immediately as the success response. -/
theorem C4_chain_short_circuit (pre : List Strategy) (s : Strategy) (post : List Strategy)
    (r : PResult)
    (hpre : ∀ t ∈ pre, ¬ validStrategy t)
    (hs : s.canHandle = true) (hok : s.outcome = .ok r) (hmv : mediaValid r = true) :
    parseLink (pre ++ s :: post) = .success r ∧
    invokedNames (pre ++ s :: post) =
      (pre.filter (fun t => t.canHandle)).map (fun t => t.name) ++ [s.name] := by
  have h := runChain_first_valid pre s post defaultErr r hpre hs hok hmv
  constructor
  · simp [parseLink, h]
  · simp [invokedNames, h]

set_option maxRecDepth 4000 in
/-- Witness for C4 at a concrete chain: the first strategy is skipped
(not applicable), the second faults, the third succeeds with media, the
fourth is never invoked. -/
theorem C4_chain_short_circuit_witness :
    parseLink [⟨"BrowserParser", false, .fault "x"⟩,
               ⟨"AggregatorParser", true, .fault "boom"⟩,
               ⟨"DouyinParser", true, .ok ⟨.str "t", .str "c", .str "http://v", .arr [], "douyin", "video"⟩⟩,
               ⟨"KuaishouParser", true, .ok ⟨.str "t", .str "c", .str "http://w", .arr [], "kuaishou", "video"⟩⟩]
      = .success ⟨.str "t", .str "c", .str "http://v", .arr [], "douyin", "video"⟩ ∧
    invokedNames [⟨"BrowserParser", false, .fault "x"⟩,
               ⟨"AggregatorParser", true, .fault "boom"⟩,
               ⟨"DouyinParser", true, .ok ⟨.str "t", .str "c", .str "http://v", .arr [], "douyin", "video"⟩⟩,
               ⟨"KuaishouParser", true, .ok ⟨.str "t", .str "c", .str "http://w", .arr [], "kuaishou", "video"⟩⟩]
      = ["AggregatorParser", "DouyinParser"] := by
  have h := C4_chain_short_circuit
    [⟨"BrowserParser", false, .fault "x"⟩, ⟨"AggregatorParser", true, .fault "boom"⟩]
    ⟨"DouyinParser", true, .ok ⟨.str "t", .str "c", .str "http://v", .arr [], "douyin", "video"⟩⟩
    [⟨"KuaishouParser", true, .ok ⟨.str "t", .str "c", .str "http://w", .arr [], "kuaishou", "video"⟩⟩]
    ⟨.str "t", .str "c", .str "http://v", .arr [], "douyin", "video"⟩
    (by
      intro t ht
      rcases List.mem_cons.mp ht with rfl | ht'
      · rintro ⟨hch, -⟩
        cases hch
      · rcases List.mem_cons.mp ht' with rfl | ht''
        · rintro ⟨-, r', hr', -⟩
          cases hr'
        · cases ht'')
    rfl rfl (by decide)
  simpa using h

set_option maxRecDepth 4000 in
/-- C9 as stated is false: when a strategy fault is followed by an
applicable strategy that parses successfully but yields no media, the
surfaced diagnostic is the "parsed but no media" message, not the fault
of the last failing strategy formatted as `name: message`. -/
theorem C9_counterexample :
    parseLink [⟨"BrowserParser", true, .fault "boom"⟩,
               ⟨"AggregatorParser", true, .ok ⟨.str "t", .str "", .null, .arr [], "douyin", "video"⟩⟩]
      = .failure noMediaErr ∧
    noMediaErr ≠ faultDiag "BrowserParser" "boom" := by
  constructor
  · decide
  · decide

/-- C9 (amended): when no strategy yields a valid result the chain fails
with exactly the last recorded diagnostic: the default
unsupported-platform message when no strategy was applicable at all,
and otherwise the diagnostic of the last applicable strategy — the
no-media message if it returned an empty result, `name: msg[:200]` if
it raised. -/
theorem C9_last_diagnostic :
    (∀ l : List Strategy, (∀ t ∈ l, t.canHandle = false) → parseLink l = .failure defaultErr) ∧
    (∀ (pre : List Strategy) (t : Strategy) (post : List Strategy),
      (∀ q ∈ pre ++ t :: post, ¬ validStrategy q) →
      t.canHandle = true →
      (∀ q ∈ post, q.canHandle = false) →
      parseLink (pre ++ t :: post) = .failure (strategyDiag t) ∧
      (∀ m, t.outcome = .fault m → strategyDiag t = faultDiag t.name m) ∧
      (∀ r, t.outcome = .ok r → strategyDiag t = noMediaErr)) := by
  constructor
  · intro l h
    simp [parseLink, runChain_all_skip l defaultErr h]
  · intro pre t post hinv ht hpost
    refine ⟨?_, ?_, ?_⟩
    · have h := runChain_last_applicable pre t post defaultErr hinv ht hpost
      simp [parseLink, h]
    · intro m hm
      simp [strategyDiag, hm]
    · intro r hr
      simp [strategyDiag, hr]

/-- Witness for C9 (amended): three applicable strategies fault with
distinct errors; the surfaced error is the last one's, formatted
`name: message`. -/
theorem C9_last_diagnostic_witness :
    parseLink [⟨"BrowserParser", true, .fault "e1"⟩,
               ⟨"AggregatorParser", true, .fault "e2"⟩,
               ⟨"DouyinParser", true, .fault "e3"⟩]
      = .failure (faultDiag "DouyinParser" "e3") := by
  have h := (C9_last_diagnostic.2
    [⟨"BrowserParser", true, .fault "e1"⟩, ⟨"AggregatorParser", true, .fault "e2"⟩]
    ⟨"DouyinParser", true, .fault "e3"⟩ []
    (by
      intro q hq
      rintro ⟨-, r', hr', -⟩
      rcases List.mem_cons.mp hq with rfl | hq'
      · cases hr'
      · rcases List.mem_cons.mp hq' with rfl | hq''
        · cases hr'
        · rcases List.mem_cons.mp hq'' with rfl | hq'''
          · cases hr'
          · cases hq''')
    rfl
    (by intro q hq; cases hq))
  rcases h with ⟨h1, h2, -⟩
  rw [h2 "e3" rfl] at h1
  simpa using h1

/-- C10: `AggregatorParser.can_handle` accepts every URL with the
`http` prefix, so past `parse_link`'s http guard the chain always has an
applicable strategy; consequently a failing resolution never surfaces
the default unsupported-platform diagnostic — the final error is the
no-media message or a `name: msg[:200]` strategy fault. -/
theorem C10_aggregator_catch_all :
    (∀ url : String, pyStartsWith url "http" = true → aggregatorCanHandle url = true) ∧
    (∀ (url : String) (pre post : List Strategy) (oc : StratOutcome) (e : String),
      pyStartsWith url "http" = true →
      parseLink (pre ++ ⟨"AggregatorParser", aggregatorCanHandle url, oc⟩ :: post) = .failure e →
      (e = noMediaErr ∨ ∃ n m, e = faultDiag n m) ∧ e ≠ defaultErr) := by
  have hcolon : ∀ n m : String, ':' ∈ (faultDiag n m).data := by
    intro n m
    have hin : ':' ∈ (n ++ ": ").data := by
      rw [String.data_append]
      exact List.mem_append.mpr (Or.inr (by decide))
    show ':' ∈ ((n ++ ": ") ++ strTake m 200).data
    rw [String.data_append]
    exact List.mem_append.mpr (Or.inl hin)
  have hdef : ':' ∉ defaultErr.data := by decide
  constructor
  · intro url h
    simpa [aggregatorCanHandle] using h
  · intro url pre post oc e hhttp hfail
    have hch : aggregatorCanHandle url = true := by
      simpa [aggregatorCanHandle] using hhttp
    have happ : ∃ t ∈ pre ++ (⟨"AggregatorParser", aggregatorCanHandle url, oc⟩ : Strategy) :: post,
        t.canHandle = true := by
      refine ⟨⟨"AggregatorParser", aggregatorCanHandle url, oc⟩, ?_, hch⟩
      exact List.mem_append.mpr (Or.inr (List.mem_cons_self _ _))
    have hrc : (runChain (pre ++ (⟨"AggregatorParser", aggregatorCanHandle url, oc⟩ : Strategy) :: post) defaultErr).1
        = .failure e := by
      simpa [parseLink] using hfail
    have hcases := runChain_err_applicable _ defaultErr e happ hrc
    refine ⟨hcases, ?_⟩
    rcases hcases with rfl | ⟨n, m, rfl⟩
    · intro h
      have : (noMediaErr : String) = defaultErr := h
      revert this
      decide
    · intro h
      exact hdef (h ▸ hcolon n m)

set_option maxRecDepth 4000 in
/-- Witness for C10: a concrete `http` URL with a chain whose only
strategy is the (faulting) aggregator; the failure is a formatted fault
diagnostic, not the default unsupported-platform message. -/
theorem C10_aggregator_catch_all_witness :
    (pyStartsWith "http://x" "http" = true) ∧
    (faultDiag "AggregatorParser" "boom" = noMediaErr ∨
      ∃ n m, faultDiag "AggregatorParser" "boom" = faultDiag n m) ∧
    faultDiag "AggregatorParser" "boom" ≠ defaultErr := by
  refine ⟨by decide, ?_⟩
  exact C10_aggregator_catch_all.2 "http://x" [] [] (.fault "boom")
    (faultDiag "AggregatorParser" "boom") (by decide) (by decide)

/-! ## C6: platform detection -/

theorem find_platform_of_exclusive (m : List (String × List String)) (url : String)
    (p : String) (doms : List String)
    (hnd : (m.map Prod.fst).Nodup)
    (hmem : (p, doms) ∈ m)
    (hhit : ∃ d ∈ doms, strContains url d = true)
    (hexcl : ∀ e ∈ m, e.1 ≠ p → ∀ d' ∈ e.2, strContains url d' = false) :
    m.find? (fun e => e.2.any (fun d => strContains url d)) = some (p, doms) := by
  induction m with
  | nil => cases hmem
  | cons e rest ih =>
    rcases List.mem_cons.mp hmem with heq | hrest
    · subst heq
      have : (List.any doms fun d => strContains url d) = true := by
        rcases hhit with ⟨d, hd, hc⟩
        exact List.any_eq_true.mpr ⟨d, hd, hc⟩
      exact List.find?_cons_of_pos _ this
    · have hne : e.1 ≠ p := by
        intro h
        have hp : p ∈ rest.map Prod.fst := List.mem_map.mpr ⟨(p, doms), hrest, rfl⟩
        rw [List.map_cons, List.nodup_cons] at hnd
        exact hnd.1 (h ▸ hp)
      have hfalse : (List.any e.2 fun d => strContains url d) = false := by
        rw [List.any_eq_false]
        intro d hd
        rw [hexcl e (List.mem_cons_self e rest) hne d hd]
        simp
      rw [List.find?_cons_of_neg _ (by simp [hfalse]), ih]
      · rw [List.map_cons, List.nodup_cons] at hnd
        exact hnd.2
      · exact hrest
      · exact fun e' he' hne' d' hd' => hexcl e' (List.mem_cons_of_mem e he') hne' d' hd'

/-- C6 (amended): platform detection is stable on URLs containing only
one platform's domains — a URL containing one of a platform's domain
substrings and none of any other platform's maps to that platform —
no two platforms' domain sets share a domain, and the returned
identifier lies in the closed enumeration of §3 *extended with*
`pipixia` (the code registers `pipix.com`, which the spec's enumeration
omits). -/
theorem C6_detect_platform (url : String) :
    (∀ p doms, (p, doms) ∈ PLATFORM_MAP →
      (∃ d ∈ doms, strContains url d = true) →
      (∀ e ∈ PLATFORM_MAP, e.1 ≠ p → ∀ d' ∈ e.2, strContains url d' = false) →
      detect_platform url = p) ∧
    PLATFORM_MAP.Pairwise (fun a b => ∀ d ∈ a.2, d ∉ b.2) ∧
    detect_platform url ∈ "pipixia" :: specPlatformEnum := by
  refine ⟨?_, by decide, ?_⟩
  · intro p doms hmem hhit hexcl
    have hnd : (PLATFORM_MAP.map Prod.fst).Nodup := by decide
    have h := find_platform_of_exclusive PLATFORM_MAP url p doms hnd hmem hhit hexcl
    simp [detect_platform, h]
  · unfold detect_platform
    cases hf : PLATFORM_MAP.find? (fun e => e.2.any (fun d => strContains url d)) with
    | none => simp [specPlatformEnum]
    | some e =>
      have hmem := List.mem_of_find?_eq_some hf
      have : e.1 ∈ PLATFORM_MAP.map Prod.fst := List.mem_map.mpr ⟨e, hmem, rfl⟩
      revert this
      simp only [PLATFORM_MAP, specPlatformEnum, List.map_cons, List.map_nil]
      intro h
      simp only [List.mem_cons, List.not_mem_nil, or_false] at h
      rcases h with h | h | h | h | h | h | h <;> simp [h]

/-- Witness for C6: a URL containing only kuaishou domains detects as
kuaishou. -/
theorem C6_detect_platform_witness :
    detect_platform "https://v.kuaishou.com/abc" = "kuaishou" := by
  exact (C6_detect_platform "https://v.kuaishou.com/abc").1 "kuaishou"
    ["kuaishou.com", "gifshow.com", "chenzhongtech.com"] (by decide) (by decide) (by decide)

/-- C6 as stated is false on two counts.  Enumeration: the code's
platform table also contains `pipixia`, so `detect_platform` is not
confined to the spec's closed enumeration.  Stability: a URL containing
one of kuaishou's registered domain substrings (`kuaishou.com`) does
not map to kuaishou when it also contains a douyin domain — the table
is scanned in order and douyin comes first — so "any URL containing one
of a platform's registered domain substrings maps to that platform"
fails without an exclusivity hypothesis. -/
theorem C6_counterexample :
    (detect_platform "https://h5.pipix.com/item/123" = "pipixia" ∧
      "pipixia" ∉ specPlatformEnum) ∧
    (("kuaishou", ["kuaishou.com", "gifshow.com", "chenzhongtech.com"]) ∈ PLATFORM_MAP ∧
      strContains "https://kuaishou.com/a?ref=douyin.com" "kuaishou.com" = true ∧
      detect_platform "https://kuaishou.com/a?ref=douyin.com" = "douyin" ∧
      "douyin" ≠ "kuaishou") := by
  refine ⟨⟨by decide, by decide⟩, by decide, by decide, by decide, by decide⟩

/-! ## C7: bitrate selection -/

/-- The numeric key of a variant (0 when the computation would raise;
under the hypotheses of the selection theorem every key is `.ok`). -/
def kVal (v : JVal) : Int :=
  match bitRateKey v with
  | .ok n => n
  | .error _ => 0

/-- `r` is the first element of `l` attaining the maximal bitrate key:
everything before it is strictly smaller, everything in `l` is at most
its key. -/
def isFirstMax (r : JVal) (l : List JVal) : Prop :=
  ∃ pre post, l = pre ++ r :: post ∧ (∀ p ∈ pre, kVal p < kVal r) ∧ ∀ q ∈ l, kVal q ≤ kVal r

theorem kVal_of_ok {v : JVal} {n : Int} (h : bitRateKey v = .ok n) : kVal v = n := by
  simp [kVal, h]

theorem pyMaxGo_firstMax (ys : List JVal) (best : JVal) (kb : Int)
    (hb : bitRateKey best = .ok kb)
    (hys : ∀ y ∈ ys, ∃ n, bitRateKey y = .ok n) :
    ∃ r, pyMaxGo best kb ys = .ok r ∧ isFirstMax r (best :: ys) := by
  induction ys generalizing best kb with
  | nil =>
    refine ⟨best, rfl, [], [], rfl, by simp, ?_⟩
    intro q hq
    rcases List.mem_singleton.mp hq with rfl
    exact le_refl _
  | cons y ys ih =>
    rcases hys y (List.mem_cons_self y ys) with ⟨ky, hky⟩
    have hys' : ∀ y' ∈ ys, ∃ n, bitRateKey y' = .ok n :=
      fun y' hy' => hys y' (List.mem_cons_of_mem y hy')
    have hkb : kVal best = kb := kVal_of_ok hb
    have hkyv : kVal y = ky := kVal_of_ok hky
    have hstep : pyMaxGo best kb (y :: ys) =
        if kb < ky then pyMaxGo y ky ys else pyMaxGo best kb ys := by
      simp [pyMaxGo, hky, bind, Except.bind]
    by_cases hlt : kb < ky
    · rcases ih y ky hky hys' with ⟨r, hr, pre, post, hsplit, hpre, hall⟩
      refine ⟨r, by rw [hstep, if_pos hlt]; exact hr, best :: pre, post, ?_, ?_, ?_⟩
      · rw [List.cons_append, ← hsplit]
      · intro p hp
        rcases List.mem_cons.mp hp with rfl | hp'
        · calc kVal p = kb := hkb
            _ < ky := hlt
            _ = kVal y := hkyv.symm
            _ ≤ kVal r := hall y (List.mem_cons_self y ys)
        · exact hpre p hp'
      · intro q hq
        rcases List.mem_cons.mp hq with rfl | hq'
        · have hlt2 : kVal q < kVal r := by
            calc kVal q = kb := hkb
              _ < ky := hlt
              _ = kVal y := hkyv.symm
              _ ≤ kVal r := hall y (List.mem_cons_self y ys)
          exact le_of_lt hlt2
        · exact hall q hq'
    · have hle : ky ≤ kb := le_of_not_lt hlt
      rcases ih best kb hb hys' with ⟨r, hr, pre, post, hsplit, hpre, hall⟩
      refine ⟨r, by rw [hstep, if_neg hlt]; exact hr, ?_⟩
      cases pre with
      | nil =>
        have hrb : best = r := by
          simpa using congrArg (fun l => l.head?) hsplit
        subst hrb
        have hpost : ys = post := by
          simpa using congrArg (fun l => l.tail) hsplit
        refine ⟨[], y :: ys, by simp, by simp, ?_⟩
        intro q hq
        rcases List.mem_cons.mp hq with rfl | hq'
        · exact le_refl _
        · rcases List.mem_cons.mp hq' with rfl | hq''
          · rw [hkyv, hkb]; exact hle
          · exact hall q (List.mem_cons_of_mem best hq'')
      | cons b pre' =>
        have hb' : best = b := by
          simpa using congrArg (fun l => l.head?) hsplit
        subst hb'
        have hys2 : ys = pre' ++ r :: post := by
          simpa using congrArg (fun l => l.tail) hsplit
        have hbr : kVal best < kVal r := hpre best (List.mem_cons_self best pre')
        refine ⟨best :: y :: pre', post, ?_, ?_, ?_⟩
        · rw [hys2]; simp
        · intro p hp
          rcases List.mem_cons.mp hp with rfl | hp'
          · exact hbr
          · rcases List.mem_cons.mp hp' with rfl | hp''
            · calc kVal p = ky := hkyv
                _ ≤ kb := hle
                _ = kVal best := hkb.symm
                _ < kVal r := hbr
            · exact hpre p (List.mem_cons_of_mem best hp'')
        · intro q hq
          rcases List.mem_cons.mp hq with rfl | hq'
          · exact le_of_lt hbr
          · rcases List.mem_cons.mp hq' with rfl | hq''
            · calc kVal q = ky := hkyv
                _ ≤ kb := hle
                _ = kVal best := hkb.symm
                _ ≤ kVal r := le_of_lt hbr
            · exact hall q (List.mem_cons_of_mem best hq'')

/-- A `{bit_rate, play_addr}` quality variant. -/
def mkVariant (n : Int) (u : String) : JVal :=
  .obj [("bit_rate", .num n), ("play_addr", .obj [("url_list", .arr [.str u])])]

/-- C7: for every non-empty list of quality variants with numeric
`bit_rate` keys, `max(bit_rates, key=lambda x: x.get("bit_rate", 0))`
selects a variant whose bitrate is maximal, with ties broken in favor
of the first maximal variant in list order; for bitrates
`[240, 720, 480]` the `720` variant is selected. -/
theorem C7_bitrate_selection :
    (∀ (v : JVal) (vs : List JVal),
      (∀ y ∈ v :: vs, ∃ n, bitRateKey y = .ok n) →
      ∃ r, pyMaxBy (v :: vs) = .ok r ∧ isFirstMax r (v :: vs)) ∧
    pyMaxBy [mkVariant 240 "u240", mkVariant 720 "u720", mkVariant 480 "u480"]
      = .ok (mkVariant 720 "u720") := by
  constructor
  · intro v vs hall
    rcases hall v (List.mem_cons_self v vs) with ⟨kv, hkv⟩
    have : pyMaxBy (v :: vs) = pyMaxGo v kv vs := by
      simp [pyMaxBy, hkv, bind, Except.bind]
    rw [this]
    exact pyMaxGo_firstMax vs v kv hkv
      (fun y hy => hall y (List.mem_cons_of_mem v hy))
  · decide

/-- Witness for C7: the universal part applied to the concrete
`[240, 720, 480]` variant list. -/
theorem C7_bitrate_selection_witness :
    ∃ r, pyMaxBy [mkVariant 240 "a", mkVariant 720 "b", mkVariant 480 "c"] = .ok r ∧
      isFirstMax r [mkVariant 240 "a", mkVariant 720 "b", mkVariant 480 "c"] := by
  refine C7_bitrate_selection.1 (mkVariant 240 "a") [mkVariant 720 "b", mkVariant 480 "c"] ?_
  intro y hy
  rcases List.mem_cons.mp hy with rfl | hy'
  · exact ⟨240, by decide⟩
  · rcases List.mem_cons.mp hy' with rfl | hy''
    · exact ⟨720, by decide⟩
    · rcases List.mem_cons.mp hy'' with rfl | hy'''
      · exact ⟨480, by decide⟩
      · cases hy'''

/-! ## C3: the watermark rewrite -/

theorem replF_of_not_sub (pat rep : List Char) :
    ∀ (fuel : Nat) (s : List Char), s.length ≤ fuel → subListB pat s = false →
    replF pat rep fuel s = s := by
  intro fuel
  induction fuel with
  | zero =>
    intro s hlen _
    have : s = [] := List.eq_nil_of_length_eq_zero (Nat.le_zero.mp hlen)
    subst this
    rfl
  | succ fuel ih =>
    intro s hlen hsub
    cases s with
    | nil => rfl
    | cons c rest =>
      have hsub' := hsub
      rw [subListB, Bool.or_eq_false_iff] at hsub'
      rcases hsub' with ⟨hpre, hrest⟩
      rw [replF, if_neg]
      · rw [ih rest (by simpa using Nat.le_of_succ_le_succ hlen) hrest]
      · rintro ⟨-, hp⟩
        rw [hpre] at hp
        cases hp

theorem replF_split (pat rep : List Char) (hpat : pat ≠ []) :
    ∀ (a : List Char) (fuel : Nat) (b : List Char),
    (a ++ pat ++ b).length ≤ fuel →
    (∀ i, i < a.length → pat.isPrefixOf ((a ++ pat ++ b).drop i) = false) →
    subListB pat b = false →
    replF pat rep fuel (a ++ pat ++ b) = a ++ rep ++ b := by
  intro a
  induction a with
  | nil =>
    intro fuel b hlen _ hb
    rcases pat with _ | ⟨p, ps⟩
    · exact absurd rfl hpat
    · cases fuel with
      | zero => simp at hlen
      | succ fuel =>
        have hshape : ([] : List Char) ++ (p :: ps) ++ b = p :: (ps ++ b) := by simp
        rw [hshape, replF, if_pos]
        · have hdrop : ((p :: (ps ++ b)) : List Char).drop (p :: ps).length = b := by
            have : (p :: (ps ++ b)) = (p :: ps) ++ b := by simp
            rw [this, List.drop_left]
          rw [hdrop, replF_of_not_sub (p :: ps) rep fuel b ?_ hb]
          · simp
          · have := hlen
            simp only [List.nil_append, List.length_append, List.length_cons] at this
            omega
        · refine ⟨by simp, ?_⟩
          have heq : (p :: (ps ++ b)) = (p :: ps) ++ b := by simp
          rw [heq, List.isPrefixOf_iff_prefix]
          exact List.prefix_append (p :: ps) b
  | cons x a ih =>
    intro fuel b hlen hpos hb
    cases fuel with
    | zero => simp at hlen
    | succ fuel =>
      have hshape : (x :: a) ++ pat ++ b = x :: (a ++ pat ++ b) := by simp
      rw [hshape, replF, if_neg]
      · rw [ih fuel b ?_ ?_ hb]
        · simp
        · have := hlen
          simp only [List.length_append, List.length_cons] at this ⊢
          omega
        · intro i hi
          have := hpos (i + 1) (by simpa using Nat.succ_lt_succ hi)
          simpa using this
      · rintro ⟨-, hp⟩
        have h0 := hpos 0 (by simp)
        rw [List.drop_zero, hshape] at h0
        rw [h0] at hp
        cases hp

/-- Detail-API body with a single video item whose `play_addr.url_list`
holds one url. -/
def mkDouyinUrlListDetail (u : String) : JVal :=
  .obj [("item_list", .arr [.obj [("video",
    .obj [("play_addr", .obj [("url_list", .arr [.str u])])])]])]

/-- Detail-API body whose item has an empty `play_addr.url_list` and a
single `bit_rate` variant holding one url. -/
def mkDouyinBitrateDetail (u : String) : JVal :=
  .obj [("item_list", .arr [.obj [("video",
    .obj [("play_addr", .obj [("url_list", .arr [])]),
          ("bit_rate", .arr [.obj [("bit_rate", .num 100),
            ("play_addr", .obj [("url_list", .arr [.str u])])]])])]])]

/-- Browser SSR state with an `itemInfo` item whose
`play_addr.url_list` holds one url. -/
def mkBrowserDouyinState (u : String) : JVal :=
  .obj [("itemInfo", .obj [("video", .obj [("play_addr",
    .obj [("url_list", .arr [.str u])])])])]

/-- douyin.wtf body whose video has a `play_addr.url_list` with one url. -/
def mkWtfUrlListData (u : String) : JVal :=
  .obj [("code", .num 200), ("data", .obj [("video",
    .obj [("play_addr", .obj [("url_list", .arr [.str u])])])])]

/-- douyin.wtf body with an empty `play_addr.url_list` and one
`bit_rate` variant. -/
def mkWtfBitrateData (u : String) : JVal :=
  .obj [("code", .num 200), ("data", .obj [("video",
    .obj [("play_addr", .obj [("url_list", .arr [])]),
          ("bit_rate", .arr [.obj [("bit_rate", .num 100),
            ("play_addr", .obj [("url_list", .arr [.str u])])]])])])]

/-- C3: the watermark rewrite.  First conjunct: for a url containing
the literal `playwm` (at a position where no earlier occurrence starts,
and with no further occurrence after it), the rewritten url is the same
url with `play` in the exact same position and nothing else altered.
Remaining conjuncts: every extraction path that surfaces a native
douyin video url applies the rewrite — the native detail `url_list` and
`bit_rate` paths, the browser SSR state path, and the douyin.wtf
aggregator `url_list` and `bit_rate` paths. -/
theorem C3_watermark_rewrite :
    (∀ a b : List Char,
      (∀ i, i < a.length → ("playwm".data.isPrefixOf ((a ++ "playwm".data ++ b).drop i)) = false) →
      subListB "playwm".data b = false →
      stripWatermark ⟨a ++ "playwm".data ++ b⟩ = ⟨a ++ "play".data ++ b⟩) ∧
    (∀ u : String, stripWatermark u ≠ "" →
      douyinFetchDetail (mkDouyinUrlListDetail u) =
        .ok ⟨.str "抖音视频", .str "", .str (stripWatermark u), .arr [], "douyin", "video"⟩) ∧
    (∀ u : String, stripWatermark u ≠ "" →
      douyinFetchDetail (mkDouyinBitrateDetail u) =
        .ok ⟨.str "抖音视频", .str "", .str (stripWatermark u), .arr [], "douyin", "video"⟩) ∧
    (∀ u : String, stripWatermark u ≠ "" →
      browserDouyinExtract (mkBrowserDouyinState u) "douyin" =
        .ok (some ⟨.str "抖音视频", .str "", .str (stripWatermark u), .arr [], "douyin", "video"⟩)) ∧
    (∀ u : String, stripWatermark u ≠ "" →
      parseDouyinWtf (mkWtfUrlListData u) "douyin" =
        .ok (some ⟨.str "未知标题", .str "", .str (stripWatermark u), .arr [], "douyin", "video"⟩)) ∧
    (∀ u : String, stripWatermark u ≠ "" →
      parseDouyinWtf (mkWtfBitrateData u) "douyin" =
        .ok (some ⟨.str "未知标题", .str "", .str (stripWatermark u), .arr [], "douyin", "video"⟩)) := by
  have htr : ∀ u : String, stripWatermark u ≠ "" →
      (JVal.str (stripWatermark u)).truthy = true := by
    intro u h
    simp [JVal.truthy, h]
  refine ⟨?_, ?_, ?_, ?_, ?_, ?_⟩
  · intro a b hpos hb
    show pyReplace ⟨a ++ "playwm".data ++ b⟩ "playwm" "play" = ⟨a ++ "play".data ++ b⟩
    unfold pyReplace replL
    refine congrArg String.mk ?_
    exact replF_split "playwm".data "play".data (by decide) a _ b (le_refl _) hpos hb
  · intro u h
    simp [douyinFetchDetail, mkDouyinUrlListDetail, coverFromList, urlListWatermarkFree,
      douyinVideoFallback, bitrateWatermarkFree, mGet, JVal.pyGet, JVal.jget,
      pyIndex0, asStr, JVal.truthy, bind, Except.bind, pure, Except.pure, htr u h, h]
  · intro u h
    simp [douyinFetchDetail, mkDouyinBitrateDetail, coverFromList, urlListWatermarkFree,
      douyinVideoFallback, bitrateWatermarkFree, mGet, JVal.pyGet, JVal.jget,
      pyIndex0, asStr, JVal.truthy, bind, Except.bind, pure, Except.pure,
      pyMaxBy, pyMaxGo, bitRateKey, htr u h, h]
  · intro u h
    simp [browserDouyinExtract, mkBrowserDouyinState, bdItem0, bdScanKeys, bdImagesOf,
      bdImgs, deepFind, coverFromList, urlListWatermarkFree,
      mGet, JVal.pyGet, JVal.jget, pyIndex0, asStr, JVal.truthy, bind, Except.bind,
      pure, Except.pure, htr u h, h]
  · intro u h
    simp [parseDouyinWtf, mkWtfUrlListData, wtfCover, wtfImagesOf, wtfVideoUrl,
      urlListWatermarkFree, bitrateWatermarkFree, wtfImgs, pyEq, mGet, JVal.pyGet,
      JVal.jget, pyIndex0, asStr, JVal.truthy, bind, Except.bind, pure, Except.pure,
      htr u h, h]
  · intro u h
    simp [parseDouyinWtf, mkWtfBitrateData, wtfCover, wtfImagesOf, wtfVideoUrl,
      urlListWatermarkFree, bitrateWatermarkFree, wtfImgs, pyEq, mGet, JVal.pyGet,
      JVal.jget, pyIndex0, asStr, JVal.truthy, bind, Except.bind, pure, Except.pure,
      pyMaxBy, pyMaxGo, bitRateKey, htr u h, h]

/-- Witness for C3 at the concrete watermarked url
`https://aweme.douyin.example/aweme/v1/playwm/?video_id=7` — the rewrite
keeps everything else intact and every path surfaces the rewritten
url. -/
theorem C3_watermark_rewrite_witness :
    stripWatermark "https://d/v1/playwm/?id=7" = "https://d/v1/play/?id=7" ∧
    douyinFetchDetail (mkDouyinUrlListDetail "https://d/v1/playwm/?id=7") =
      .ok ⟨.str "抖音视频", .str "", .str (stripWatermark "https://d/v1/playwm/?id=7"),
        .arr [], "douyin", "video"⟩ := by
  constructor
  · have h := C3_watermark_rewrite.1 "https://d/v1/".data "/?id=7".data
      (by decide) (by decide)
    simpa using h
  · exact C3_watermark_rewrite.2.1 "https://d/v1/playwm/?id=7" (by decide)

/-! ## Success-shape lemmas for the producers -/

theorem mGet_ok {d : JVal} {k : String} {dflt v : JVal} (h : mGet d k dflt = .ok v) :
    v = d.pyGet k dflt := by
  cases d <;> simp [mGet, pyRaise] at h <;> simp [h]

theorem parsePearktrue_shape (data : JVal) (p : String) (r : PResult)
    (h : parsePearktrue data p = .ok (some r)) :
    (r.video_url = .null ∧ r.type = "images") ∨ (r.images = .arr [] ∧ r.type = "video") := by
  simp only [parsePearktrue, bind, Except.bind, pure, Except.pure] at h
  iterate 25 (all_goals (try split at h))
  all_goals (try simp_all [pyRaise])
  all_goals (rw [← h]; simp)

theorem invariantCore_of_images (r : PResult) (hv : r.video_url = .null)
    (ht : r.type = "images") (hm : mediaValid r = true) (hr : respOk r) :
    invariantCore r := by
  rcases hr with ⟨-, ⟨l, hl, -⟩, -, -⟩
  have himg : r.images.truthy = true := by
    rcases Bool.or_eq_true_iff.mp hm with h | h
    · rw [hv] at h
      cases h
    · exact h
  have hlne : l ≠ [] := by
    intro hnil
    rw [hl, hnil] at himg
    cases himg
  refine ⟨Or.inr ht, ?_, ?_, ?_, ?_⟩
  · constructor
    · intro hvid
      rw [ht] at hvid
      exact absurd hvid (by decide)
    · rintro ⟨s, hs, -⟩
      rw [hv] at hs
      cases hs
  · constructor
    · intro _
      exact ⟨l, hl, hlne⟩
    · intro _
      exact ht
  · intro hvid
    rw [ht] at hvid
    exact absurd hvid (by decide)
  · intro _
    exact hv

theorem invariantCore_of_video (r : PResult) (hi : r.images = .arr [])
    (ht : r.type = "video") (hm : mediaValid r = true) (hr : respOk r) :
    invariantCore r := by
  rcases hr with ⟨hvr, -, -, -⟩
  have hvid : r.video_url.truthy = true := by
    rcases Bool.or_eq_true_iff.mp hm with h | h
    · exact h
    · rw [hi] at h
      cases h
  rcases hvr with hnull | ⟨s, hs⟩
  · rw [hnull] at hvid
    cases hvid
  · have hsne : s ≠ "" := by
      intro hnil
      rw [hs, hnil] at hvid
      simp [JVal.truthy] at hvid
    refine ⟨Or.inl ht, ?_, ?_, ?_, ?_⟩
    · constructor
      · intro _
        exact ⟨s, hs, hsne⟩
      · intro _
        exact ht
    · constructor
      · intro himgs
        rw [ht] at himgs
        exact absurd himgs (by decide)
      · rintro ⟨l, hl, hlne⟩
        rw [hi] at hl
        exact absurd (JVal.arr.inj hl).symm hlne
    · intro _
      exact hi
    · intro himgs
      rw [ht] at himgs
      exact absurd himgs (by decide)

set_option maxHeartbeats 1600000 in
theorem parseGenericV1_shape (data : JVal) (p : String) (r : PResult)
    (h : parseGenericV1 data p = .ok (some r)) :
    (r.video_url = .null ∧ r.type = "images") ∨ (r.images = .arr [] ∧ r.type = "video") := by
  simp only [parseGenericV1, bind, Except.bind, pure, Except.pure] at h
  iterate 25 (all_goals (try split at h))
  all_goals (try simp_all [pyRaise])
  all_goals (rw [← h]; simp)

set_option maxHeartbeats 1600000 in
theorem parseDouyinWtf_shape (data : JVal) (p : String) (r : PResult)
    (h : parseDouyinWtf data p = .ok (some r)) :
    (r.video_url = .null ∧ r.type = "images") ∨ (r.images = .arr [] ∧ r.type = "video") := by
  simp only [parseDouyinWtf, bind, Except.bind, pure, Except.pure] at h
  iterate 40 (all_goals (try split at h))
  all_goals (try simp_all [pyRaise])
  all_goals (rw [← h]; simp)

theorem bind_ok {α β : Type} {e : Except Unit α} {f : α → Except Unit β} {v : β}
    (h : (e >>= f) = .ok v) : ∃ a, e = .ok a ∧ f a = .ok v := by
  cases e with
  | error u => simp [Bind.bind, Except.bind] at h
  | ok a => exact ⟨a, rfl, by simpa [Bind.bind, Except.bind] using h⟩

theorem douyinFetchDetail_shape (data : JVal) (r : PResult)
    (h : douyinFetchDetail data = .ok r) :
    (r.video_url = .null ∧ r.type = "images") ∨ (r.images = .arr [] ∧ r.type = "video") := by
  simp only [douyinFetchDetail] at h
  rcases bind_ok h with ⟨items, -, h⟩
  by_cases ht : items.truthy = true
  · rw [if_neg (fun hc => hc ht)] at h
    rcases bind_ok h with ⟨-, -, h⟩
    rcases bind_ok h with ⟨item, -, h⟩
    rcases bind_ok h with ⟨desc, -, h⟩
    rcases bind_ok h with ⟨v0, -, h⟩
    rcases bind_ok h with ⟨c0, -, h⟩
    rcases bind_ok h with ⟨covers, -, h⟩
    rcases bind_ok h with ⟨cover, -, h⟩
    by_cases himg : (item.pyGet "images" JVal.null).truthy = true
    · rw [if_pos himg] at h
      cases hid : item.pyGet "images" JVal.null with
      | arr l =>
        rw [hid] at h
        rcases bind_ok h with ⟨image_urls, -, h⟩
        have := Except.ok.inj h
        subst this
        exact Or.inl ⟨rfl, rfl⟩
      | null => rw [hid] at h; simp [pyRaise] at h
      | bool b => rw [hid] at h; simp [pyRaise] at h
      | num n => rw [hid] at h; simp [pyRaise] at h
      | str s => rw [hid] at h; simp [pyRaise] at h
      | obj fs => rw [hid] at h; simp [pyRaise] at h
    · rw [if_neg himg] at h
      rcases bind_ok h with ⟨play, -, h⟩
      rcases bind_ok h with ⟨url_list, -, h⟩
      rcases bind_ok h with ⟨vu1, -, h⟩
      rcases bind_ok h with ⟨video_url, -, h⟩
      have := Except.ok.inj h
      subst this
      exact Or.inr ⟨rfl, rfl⟩
  · rw [if_pos (by simpa using ht)] at h
    rcases bind_ok h with ⟨u, hu, -⟩
    simp [pyRaise] at hu

set_option maxHeartbeats 1600000 in
theorem kuaishouExtract_shape (data : JVal) (pid : String) (r : PResult)
    (h : kuaishouExtract data pid = .ok (some r)) :
    (r.video_url = .null ∧ r.type = "images") ∨ (r.images = .arr [] ∧ r.type = "video") := by
  simp only [kuaishouExtract, bind, Except.bind, pure, Except.pure] at h
  iterate 25 (all_goals (try split at h))
  all_goals (try simp_all [pyRaise])
  all_goals (rw [← h]; simp)

set_option maxHeartbeats 1600000 in
theorem xhsExtract_shape (data : JVal) (nid : String) (r : PResult)
    (h : xhsExtract data nid = .ok (some r)) :
    (r.video_url = .null ∧ r.type = "images") ∨ (r.images = .arr [] ∧ r.type = "video") := by
  simp only [xhsExtract, bind, Except.bind, pure, Except.pure] at h
  iterate 40 (all_goals (try split at h))
  all_goals (try simp_all [pyRaise])
  all_goals (rw [← h]; simp)

set_option maxHeartbeats 1600000 in
theorem browserXhsExtract_shape (data : JVal) (p : String) (r : PResult)
    (h : browserXhsExtract data p = .ok (some r)) :
    (r.video_url = .null ∧ r.type = "images") ∨ (r.images = .arr [] ∧ r.type = "video") := by
  simp only [browserXhsExtract, bind, Except.bind, pure, Except.pure] at h
  iterate 40 (all_goals (try split at h))
  all_goals (try simp_all [pyRaise])
  all_goals (rw [← h]; simp)

set_option maxHeartbeats 1600000 in
theorem browserDouyinExtract_shape (data : JVal) (p : String) (r : PResult)
    (h : browserDouyinExtract data p = .ok (some r)) :
    (r.video_url = .null ∧ r.type = "images") ∨ (r.images = .arr [] ∧ r.type = "video") := by
  simp only [browserDouyinExtract, bind, Except.bind, pure, Except.pure] at h
  iterate 40 (all_goals (try split at h))
  all_goals (try simp_all [pyRaise])
  all_goals (rw [← h]; simp)

set_option maxHeartbeats 1600000 in
theorem browserKsExtract_shape (data : JVal) (p : String) (r : PResult)
    (h : browserKsExtract data p = .ok (some r)) :
    (r.video_url = .null ∧ r.type = "images") ∨ (r.images = .arr [] ∧ r.type = "video") := by
  simp only [browserKsExtract, bind, Except.bind, pure, Except.pure] at h
  iterate 25 (all_goals (try split at h))
  all_goals (try simp_all [pyRaise])
  all_goals (rw [← h]; simp)

/-! ## C1: the success-path invariant -/

theorem kuaishouParsePageFallback_shape (cm com vm : Option String) (imgs : List String) :
    ((kuaishouParsePageFallback cm com vm imgs).video_url = .null ∧
      (kuaishouParsePageFallback cm com vm imgs).type = "images") ∨
    ((kuaishouParsePageFallback cm com vm imgs).images = .arr [] ∧
      (kuaishouParsePageFallback cm com vm imgs).type = "video") := by
  simp only [kuaishouParsePageFallback]
  split
  · exact Or.inl ⟨rfl, rfl⟩
  · exact Or.inr ⟨rfl, rfl⟩

theorem xhsParsePageFallback_shape (ti : String) (dm : Option String)
    (imgs : List String) (vk vp : Option String) :
    ((xhsParsePageFallback ti dm imgs vk vp).video_url = .null ∧
      (xhsParsePageFallback ti dm imgs vk vp).type = "images") ∨
    ((xhsParsePageFallback ti dm imgs vk vp).images = .arr [] ∧
      (xhsParsePageFallback ti dm imgs vk vp).type = "video") := by
  rcases vk with _ | k
  · rcases vp with _ | v
    · exact Or.inl ⟨rfl, rfl⟩
    · exact Or.inr ⟨rfl, rfl⟩
  · exact Or.inr ⟨rfl, rfl⟩

theorem scrapeXhsDom_shape (t : String) (imgs : List String) (vu : Option String)
    (p : String) (hvu : ∀ v, vu = some v → v ≠ "") :
    ((scrapeXhsDom t imgs vu p).video_url = .null ∧
      (scrapeXhsDom t imgs vu p).type = "images") ∨
    ((scrapeXhsDom t imgs vu p).images = .arr [] ∧
      (scrapeXhsDom t imgs vu p).type = "video") := by
  rcases vu with _ | v
  · exact Or.inl ⟨rfl, rfl⟩
  · have hv : v ≠ "" := hvu v rfl
    have ht : (JVal.str v).truthy = true := by simp [JVal.truthy, hv]
    right
    constructor
    · simp [scrapeXhsDom, ht]
    · simp [scrapeXhsDom, ht]

theorem browserDouyinDom_shape (t : String) (imgs : List String) (vu : Option String)
    (p : String) (hvu : ∀ v, vu = some v → v ≠ "") :
    ((browserDouyinDom t imgs vu p).video_url = .null ∧
      (browserDouyinDom t imgs vu p).type = "images") ∨
    ((browserDouyinDom t imgs vu p).images = .arr [] ∧
      (browserDouyinDom t imgs vu p).type = "video") := by
  rcases vu with _ | v
  · exact Or.inl ⟨rfl, rfl⟩
  · have hv : v ≠ "" := hvu v rfl
    have ht : (JVal.str v).truthy = true := by simp [JVal.truthy, hv]
    right
    constructor
    · simp [browserDouyinDom, ht]
    · simp [browserDouyinDom, ht]

/-- C1 (amended): on every success path of every strategy — a parse
that returns a result passing `parse_link`'s media gate and the
`ParseResponse` field validation — exactly one of `video_url`/`images`
is populated, consistently with `content_type` (`video_url` is a
non-empty string iff the type is `"video"`, `images` a non-empty list
iff the type is `"images"`).  The no-empty-string clause of §3 is NOT
amended in: the kuaishou state extractor and the douyin gallery
extractors do not filter empty image entries (see the
counterexample). -/
theorem C1_success_invariant :
    (∀ data p r, parsePearktrue data p = .ok (some r) →
      mediaValid r = true → respOk r → invariantCore r) ∧
    (∀ data p r, parseGenericV1 data p = .ok (some r) →
      mediaValid r = true → respOk r → invariantCore r) ∧
    (∀ data p r, parseDouyinWtf data p = .ok (some r) →
      mediaValid r = true → respOk r → invariantCore r) ∧
    (∀ data r, douyinFetchDetail data = .ok r →
      mediaValid r = true → respOk r → invariantCore r) ∧
    (∀ data pid r, kuaishouExtract data pid = .ok (some r) →
      mediaValid r = true → respOk r → invariantCore r) ∧
    (∀ cm com vm imgs r, kuaishouParsePageFallback cm com vm imgs = r →
      mediaValid r = true → respOk r → invariantCore r) ∧
    (∀ data nid r, xhsExtract data nid = .ok (some r) →
      mediaValid r = true → respOk r → invariantCore r) ∧
    (∀ ti dm imgs vk vp r, xhsParsePageFallback ti dm imgs vk vp = r →
      mediaValid r = true → respOk r → invariantCore r) ∧
    (∀ data p r, browserXhsExtract data p = .ok (some r) →
      mediaValid r = true → respOk r → invariantCore r) ∧
    (∀ t imgs vu p r, scrapeXhsDom t imgs vu p = r →
      (∀ v, vu = some v → v ≠ "") →
      mediaValid r = true → respOk r → invariantCore r) ∧
    (∀ data p r, browserDouyinExtract data p = .ok (some r) →
      mediaValid r = true → respOk r → invariantCore r) ∧
    (∀ t imgs vu p r, browserDouyinDom t imgs vu p = r →
      (∀ v, vu = some v → v ≠ "") →
      mediaValid r = true → respOk r → invariantCore r) ∧
    (∀ data p r, browserKsExtract data p = .ok (some r) →
      mediaValid r = true → respOk r → invariantCore r) ∧
    (∀ t vu p r, browserKsDom t vu p = r →
      mediaValid r = true → respOk r → invariantCore r) := by
  refine ⟨?_, ?_, ?_, ?_, ?_, ?_, ?_, ?_, ?_, ?_, ?_, ?_, ?_, ?_⟩
  · intro data p r h hm hr
    rcases parsePearktrue_shape data p r h with ⟨hv, ht⟩ | ⟨hi, ht⟩
    · exact invariantCore_of_images r hv ht hm hr
    · exact invariantCore_of_video r hi ht hm hr
  · intro data p r h hm hr
    rcases parseGenericV1_shape data p r h with ⟨hv, ht⟩ | ⟨hi, ht⟩
    · exact invariantCore_of_images r hv ht hm hr
    · exact invariantCore_of_video r hi ht hm hr
  · intro data p r h hm hr
    rcases parseDouyinWtf_shape data p r h with ⟨hv, ht⟩ | ⟨hi, ht⟩
    · exact invariantCore_of_images r hv ht hm hr
    · exact invariantCore_of_video r hi ht hm hr
  · intro data r h hm hr
    rcases douyinFetchDetail_shape data r h with ⟨hv, ht⟩ | ⟨hi, ht⟩
    · exact invariantCore_of_images r hv ht hm hr
    · exact invariantCore_of_video r hi ht hm hr
  · intro data pid r h hm hr
    rcases kuaishouExtract_shape data pid r h with ⟨hv, ht⟩ | ⟨hi, ht⟩
    · exact invariantCore_of_images r hv ht hm hr
    · exact invariantCore_of_video r hi ht hm hr
  · intro cm com vm imgs r h hm hr
    subst h
    rcases kuaishouParsePageFallback_shape cm com vm imgs with ⟨hv, ht⟩ | ⟨hi, ht⟩
    · exact invariantCore_of_images _ hv ht hm hr
    · exact invariantCore_of_video _ hi ht hm hr
  · intro data nid r h hm hr
    rcases xhsExtract_shape data nid r h with ⟨hv, ht⟩ | ⟨hi, ht⟩
    · exact invariantCore_of_images r hv ht hm hr
    · exact invariantCore_of_video r hi ht hm hr
  · intro ti dm imgs vk vp r h hm hr
    subst h
    rcases xhsParsePageFallback_shape ti dm imgs vk vp with ⟨hv, ht⟩ | ⟨hi, ht⟩
    · exact invariantCore_of_images _ hv ht hm hr
    · exact invariantCore_of_video _ hi ht hm hr
  · intro data p r h hm hr
    rcases browserXhsExtract_shape data p r h with ⟨hv, ht⟩ | ⟨hi, ht⟩
    · exact invariantCore_of_images r hv ht hm hr
    · exact invariantCore_of_video r hi ht hm hr
  · intro t imgs vu p r h hvu hm hr
    subst h
    rcases scrapeXhsDom_shape t imgs vu p hvu with ⟨hv, ht⟩ | ⟨hi, ht⟩
    · exact invariantCore_of_images _ hv ht hm hr
    · exact invariantCore_of_video _ hi ht hm hr
  · intro data p r h hm hr
    rcases browserDouyinExtract_shape data p r h with ⟨hv, ht⟩ | ⟨hi, ht⟩
    · exact invariantCore_of_images r hv ht hm hr
    · exact invariantCore_of_video r hi ht hm hr
  · intro t imgs vu p r h hvu hm hr
    subst h
    rcases browserDouyinDom_shape t imgs vu p hvu with ⟨hv, ht⟩ | ⟨hi, ht⟩
    · exact invariantCore_of_images _ hv ht hm hr
    · exact invariantCore_of_video _ hi ht hm hr
  · intro data p r h hm hr
    rcases browserKsExtract_shape data p r h with ⟨hv, ht⟩ | ⟨hi, ht⟩
    · exact invariantCore_of_images r hv ht hm hr
    · exact invariantCore_of_video r hi ht hm hr
  · intro t vu p r h hm hr
    subst h
    exact invariantCore_of_video _ rfl rfl hm hr


/-- A kuaishou SSR state whose photo has a gallery entry without any
url key. -/
def ksBadState : JVal :=
  .obj [("k", .obj [("photo", .obj [("caption", .str "t"),
    ("ext_photo_list", .arr [.obj [("foo", .num 1)]])])])]

/-- What `_extract_from_state` returns for `ksBadState`. -/
def ksBadResult : PResult :=
  ⟨.str "t", .str "", .null, .arr [.str ""], "kuaishou", "images"⟩

/-- C1 as stated is false: the kuaishou state extractor builds its
gallery with `p.get("cdn_image_url", p.get("url", ""))` and no
truthiness filter, so a success-path result (it passes the media gate
and the response-field typing) can carry an empty string in `images`. -/
theorem C1_counterexample :
    kuaishouExtract ksBadState "pid" = .ok (some ksBadResult) ∧
    mediaValid ksBadResult = true ∧
    respOk ksBadResult ∧
    ¬ noEmptyImages ksBadResult := by
  refine ⟨by decide, by decide, ?_, ?_⟩
  · refine ⟨Or.inl rfl, ⟨[.str ""], rfl, ?_⟩, Or.inr ⟨"t", rfl⟩, Or.inr ⟨"", rfl⟩⟩
    intro v hv
    simp only [List.mem_singleton] at hv
    exact ⟨"", hv⟩
  · intro h
    have hmem := h [.str ""] rfl
    simp at hmem

/-- Witness for C1 (amended), at the kuaishou regex fallback with a
single video match. -/
theorem C1_success_invariant_witness :
    invariantCore ⟨.str "t", .str "", .str "http://v", .arr [], "kuaishou", "video"⟩ := by
  refine C1_success_invariant.2.2.2.2.2.1 (some "t") (some "") (some "http://v") []
    ⟨.str "t", .str "", .str "http://v", .arr [], "kuaishou", "video"⟩
    (by decide) (by decide) ?_
  exact ⟨Or.inr ⟨"http://v", rfl⟩, ⟨[], rfl, by intro v hv; cases hv⟩,
    Or.inr ⟨"t", rfl⟩, Or.inr ⟨"", rfl⟩⟩

/-! ## C2: type discrimination -/

/-- A douyin detail item carrying both a gallery and a video url. -/
def mkDouyinBoth (u v : String) : JVal :=
  .obj [("item_list", .arr [.obj [
    ("images", .arr [.obj [("url_list", .arr [.str u])]]),
    ("video", .obj [("play_addr", .obj [("url_list", .arr [.str v])])])]])]

/-- A douyin.wtf body carrying both a gallery and a video url. -/
def mkWtfBoth (u v : String) : JVal :=
  .obj [("code", .num 200), ("data", .obj [
    ("images", .arr [.obj [("url_list", .arr [.str u])]]),
    ("video", .obj [("play_addr", .obj [("url_list", .arr [.str v])])])])]

/-- A browser douyin SSR state carrying both a gallery and a video url. -/
def mkBrowserDouyinBoth (u v : String) : JVal :=
  .obj [("itemInfo", .obj [
    ("images", .arr [.obj [("url_list", .arr [.str u])]]),
    ("video", .obj [("play_addr", .obj [("url_list", .arr [.str v])])])])]

/-- A pearktrue body carrying both an image list and a video url. -/
def mkPearktrueBoth (u v : String) : JVal :=
  .obj [("code", .num 200), ("data", .obj [("images", .arr [.str u]), ("url", .str v)])]

/-- A generic-v1 body carrying both an image list and a video url. -/
def mkGenericBoth (u v : String) : JVal :=
  .obj [("status", .num 200), ("data", .obj [("images", .arr [.str u]), ("url", .str v)])]

/-- A xiaohongshu SSR state whose note has both a non-empty image list
and a derivable video stream url. -/
def mkXhsBoth (u v : String) : JVal :=
  .obj [("note", .obj [("noteDetailMap", .obj [("nid", .obj [("note", .obj [
    ("title", .str "T"),
    ("imageList", .arr [.obj [("urlDefault", .str u)]]),
    ("video", .obj [("media", .obj [("stream",
      .obj [("h264", .arr [.obj [("masterUrl", .str v)]])])])])])])])])]

/-- A browser xiaohongshu state with both media kinds. -/
def mkBXhsBoth (u v : String) : JVal :=
  .obj [("noteData", .obj [("data", .obj [
    ("title", .str "T"),
    ("imageList", .arr [.obj [("urlDefault", .str u)]]),
    ("video", .obj [("media", .obj [("stream",
      .obj [("h264", .arr [.obj [("masterUrl", .str v)]])])])])])])]

/-- A kuaishou state whose photo has both a gallery and a
watermark-free video url. -/
def mkKsBoth (u v : String) : JVal :=
  .obj [("k", .obj [("photo", .obj [("caption", .str "T"), ("srcNoMark", .str v),
    ("ext_photo_list", .arr [.obj [("cdn_image_url", .str u)]])])])]

/-- A browser kuaishou state with both media kinds. -/
def mkBKsBoth (u v : String) : JVal :=
  .obj [("x", .obj [("caption", .str "T"), ("srcNoMark", .str v),
    ("ext_photo_list", .arr [.obj [("cdn_image_url", .str u)]])])]

/-- C2 (amended): when both a non-empty image list and a non-empty
video URL can be derived from the payload, the image list takes
precedence on the douyin paths (native detail API, browser SSR state,
douyin.wtf) and on the aggregator paths (pearktrue, generic-v1), but a
derivable video URL takes precedence on the xiaohongshu state
extractors (`XiaohongshuParser._extract_from_state`,
`BrowserParser._extract_xhs_from_state`) and on the kuaishou
extractors, which classify the content as `"video"` and drop the image
list. -/
theorem C2_type_discrimination :
    (∀ u v : String, douyinFetchDetail (mkDouyinBoth u v) =
      .ok ⟨.str "抖音视频", .str "", .null, .arr [.str u], "douyin", "images"⟩) ∧
    (∀ u v : String, parseDouyinWtf (mkWtfBoth u v) "douyin" =
      .ok (some ⟨.str "未知标题", .str u, .null, .arr [.str u], "douyin", "images"⟩)) ∧
    (∀ u v : String, browserDouyinExtract (mkBrowserDouyinBoth u v) "douyin" =
      .ok (some ⟨.str "抖音图集", .str u, .null, .arr [.str u], "douyin", "images"⟩)) ∧
    (∀ u v : String, u ≠ "" →
      parsePearktrue (mkPearktrueBoth u v) "douyin" =
        .ok (some ⟨.str "未知标题", .str u, .null, .arr [.str u], "douyin", "images"⟩)) ∧
    (∀ u v : String, u ≠ "" →
      parseGenericV1 (mkGenericBoth u v) "douyin" =
        .ok (some ⟨.str "未知标题", .str u, .null, .arr [.str u], "douyin", "images"⟩)) ∧
    (∀ u v : String, u ≠ "" → v ≠ "" →
      xhsExtract (mkXhsBoth u v) "nid" =
        .ok (some ⟨.str "T", .str (unescapeSlash u), .str (unescapeSlash v),
          .arr [], "xiaohongshu", "video"⟩)) ∧
    (∀ u v : String, u ≠ "" → v ≠ "" →
      browserXhsExtract (mkBXhsBoth u v) "xiaohongshu" =
        .ok (some ⟨.str "T", .str u, .str v, .arr [], "xiaohongshu", "video"⟩)) ∧
    (∀ u v : String, v ≠ "" →
      kuaishouExtract (mkKsBoth u v) "pid" =
        .ok (some ⟨.str "T", .str "", .str v, .arr [], "kuaishou", "video"⟩)) ∧
    (∀ u v : String, v ≠ "" →
      browserKsExtract (mkBKsBoth u v) "kuaishou" =
        .ok (some ⟨.str "T", .str "", .str v, .arr [], "kuaishou", "video"⟩)) := by
  have hstr : ∀ s : String, s ≠ "" → (JVal.str s).truthy = true := by
    intro s h
    simp [JVal.truthy, h]
  refine ⟨?_, ?_, ?_, ?_, ?_, ?_, ?_, ?_, ?_⟩
  · intro u v
    simp [douyinFetchDetail, mkDouyinBoth, coverFromList, douyinImgs, mGet,
      JVal.pyGet, JVal.jget, pyIndex0, JVal.truthy, bind, Except.bind, pure, Except.pure]
  · intro u v
    simp [parseDouyinWtf, mkWtfBoth, wtfCover, wtfImagesOf, wtfImgs, pyEq, mGet,
      JVal.pyGet, JVal.jget, pyIndex0, JVal.truthy, bind, Except.bind, pure, Except.pure]
  · intro u v
    simp [browserDouyinExtract, mkBrowserDouyinBoth, bdItem0, bdScanKeys, bdImagesOf,
      bdImgs, coverFromList, mGet, JVal.pyGet, JVal.jget, pyIndex0, JVal.truthy,
      bind, Except.bind, pure, Except.pure]
  · intro u v hu
    simp [parsePearktrue, mkPearktrueBoth, pearkClean, pyEq, mGet, JVal.pyGet,
      JVal.jget, JVal.truthy, bind, Except.bind, pure, Except.pure, hu]
  · intro u v hu
    simp [parseGenericV1, mkGenericBoth, genericClean, genericCoverFallback,
      genericStatusOk, pyEq, mGet, JVal.pyGet, JVal.jget, pyIndex0, JVal.truthy,
      bind, Except.bind, pure, Except.pure, hu]
  · intro u v hu hv
    simp [xhsExtract, mkXhsBoth, xhsNoteMapFallback, xhsNote0, xhsImagesOf, xhsImgs,
      xhsVideoUrl, xhsStreams, xhsStreamScan, asStr, mGet, JVal.pyGet, JVal.jget,
      JVal.truthy, bind, Except.bind, pure, Except.pure, hu, hv]
  · intro u v hu hv
    simp [browserXhsExtract, mkBXhsBoth, bxhsNoteData, bxhsImgs, bxhsVideoUrl,
      bxhsStreams, bxhsStreamScan, mGet, JVal.pyGet, JVal.jget, JVal.truthy,
      bind, Except.bind, pure, Except.pure, hu, hv]
  · intro u v hv
    simp [kuaishouExtract, mkKsBoth, ksScan, ksImgs, ksImgList, mGet, JVal.pyGet,
      JVal.jget, JVal.truthy, bind, Except.bind, pure, Except.pure, hv]
  · intro u v hv
    simp [browserKsExtract, mkBKsBoth, bksImgs, deepFind, deepFindF, firstSome,
      firstSomeCapped, mGet, JVal.pyGet, JVal.jget, JVal.truthy,
      bind, Except.bind, pure, Except.pure, hv]

/-- C2 as stated is false: the xiaohongshu state extractor classifies a
note with both a non-empty image list and a derivable video URL as
`"video"` (image precedence does not hold on this path, even though the
image list normalises to a non-empty list). -/
theorem C2_counterexample :
    xhsImgs [.obj [("urlDefault", .str "http://img")]] = .ok [.str "http://img"] ∧
    xhsExtract (mkXhsBoth "http://img" "http://vid") "nid" =
      .ok (some ⟨.str "T", .str "http://img", .str "http://vid",
        .arr [], "xiaohongshu", "video"⟩) ∧
    "video" ≠ "images" := by
  refine ⟨by decide, by decide, by decide⟩

/-- Witness for C2 (amended) at concrete urls. -/
theorem C2_type_discrimination_witness :
    parsePearktrue (mkPearktrueBoth "http://img" "http://vid") "douyin" =
      .ok (some ⟨.str "未知标题", .str "http://img", .null,
        .arr [.str "http://img"], "douyin", "images"⟩) ∧
    kuaishouExtract (mkKsBoth "http://img" "http://vid") "pid" =
      .ok (some ⟨.str "T", .str "", .str "http://vid", .arr [], "kuaishou", "video"⟩) := by
  constructor
  · exact C2_type_discrimination.2.2.2.1 "http://img" "http://vid" (by decide)
  · exact C2_type_discrimination.2.2.2.2.2.2.2.1 "http://img" "http://vid" (by decide)

/-! ## C5: ordered key fallback -/

/-- The value of the first key *present* in the dict, else the default —
the semantics of the parsers' nested `d.get(k1, d.get(k2, …))` chains
(presence-based, not value-based). -/
def firstPresent (d : JVal) : List String → JVal → JVal
  | [], dflt => dflt
  | k :: ks, dflt =>
    match d.jget k with
    | some v => v
    | none => firstPresent d ks dflt

theorem pyGet_chain2 (d : JVal) (k1 k2 : String) (dflt : JVal) :
    d.pyGet k1 (d.pyGet k2 dflt) = firstPresent d [k1, k2] dflt := by
  unfold JVal.pyGet firstPresent
  cases d.jget k1 with
  | some v => rfl
  | none =>
    unfold firstPresent
    cases d.jget k2 with
    | some v => rfl
    | none => rfl

theorem pyGet_chain3 (d : JVal) (k1 k2 k3 : String) (dflt : JVal) :
    d.pyGet k1 (d.pyGet k2 (d.pyGet k3 dflt)) = firstPresent d [k1, k2, k3] dflt := by
  unfold JVal.pyGet firstPresent
  cases d.jget k1 with
  | some v => rfl
  | none =>
    rw [Option.getD_none]
    exact pyGet_chain2 d k2 k3 dflt

theorem parsePearktrue_title (data : JVal) (p : String) (r : PResult)
    (h : parsePearktrue data p = .ok (some r)) :
    r.title =
      (if (firstPresent (data.pyGet "data" data) ["title", "desc"] (.str "")).truthy
       then firstPresent (data.pyGet "data" data) ["title", "desc"] (.str "")
       else .str "未知标题") := by
  simp only [parsePearktrue] at h
  rcases bind_ok h with ⟨code, -, h⟩
  by_cases hc : ¬ (pyEq code (.num 200) = true ∨ pyEq code (.num 0) = true ∨
      pyEq code (.str "200") = true)
  · rw [if_pos hc] at h
    simp [pure, Except.pure] at h
  · rw [if_neg hc] at h
    rcases bind_ok h with ⟨-, -, h⟩
    rcases bind_ok h with ⟨t1, ht1, h⟩
    rcases bind_ok h with ⟨c1, -, h⟩
    rcases bind_ok h with ⟨v2, -, h⟩
    rcases bind_ok h with ⟨v1, -, h⟩
    rcases bind_ok h with ⟨i2, -, h⟩
    rcases bind_ok h with ⟨i1, -, h⟩
    have ht1' := mGet_ok ht1
    subst ht1'
    rw [← pyGet_chain2]
    by_cases hg : ¬ (((data.pyGet "data" data).pyGet "title"
          ((data.pyGet "data" data).pyGet "desc" (.str ""))).truthy = true ∨
        ((data.pyGet "data" data).pyGet "url" v1).truthy = true ∨
        ((data.pyGet "data" data).pyGet "images" i1).truthy = true)
    · rw [if_pos hg] at h
      simp [pure, Except.pure] at h
    · rw [if_neg hg] at h
      rcases bind_ok h with ⟨-, -, h⟩
      cases himg : (data.pyGet "data" data).pyGet "images" i1 with
      | arr l =>
        rw [himg] at h
        cases l with
        | nil =>
          by_cases hv : ¬ ((data.pyGet "data" data).pyGet "url" v1).truthy = true
          · rw [if_pos hv] at h
            simp [pure, Except.pure] at h
          · rw [if_neg hv] at h
            have := Except.ok.inj h
            have h2 := Option.some.inj this
            rw [← h2]
        | cons i is =>
          have := Except.ok.inj h
          have h2 := Option.some.inj this
          rw [← h2]
      | null =>
        rw [himg] at h
        by_cases hv : ¬ ((data.pyGet "data" data).pyGet "url" v1).truthy = true
        · rw [if_pos hv] at h
          simp [pure, Except.pure] at h
        · rw [if_neg hv] at h
          have := Except.ok.inj h
          have h2 := Option.some.inj this
          rw [← h2]
      | bool b =>
        rw [himg] at h
        by_cases hv : ¬ ((data.pyGet "data" data).pyGet "url" v1).truthy = true
        · rw [if_pos hv] at h
          simp [pure, Except.pure] at h
        · rw [if_neg hv] at h
          have := Except.ok.inj h
          have h2 := Option.some.inj this
          rw [← h2]
      | num n =>
        rw [himg] at h
        by_cases hv : ¬ ((data.pyGet "data" data).pyGet "url" v1).truthy = true
        · rw [if_pos hv] at h
          simp [pure, Except.pure] at h
        · rw [if_neg hv] at h
          have := Except.ok.inj h
          have h2 := Option.some.inj this
          rw [← h2]
      | str st =>
        rw [himg] at h
        by_cases hv : ¬ ((data.pyGet "data" data).pyGet "url" v1).truthy = true
        · rw [if_pos hv] at h
          simp [pure, Except.pure] at h
        · rw [if_neg hv] at h
          have := Except.ok.inj h
          have h2 := Option.some.inj this
          rw [← h2]
      | obj fs =>
        rw [himg] at h
        by_cases hv : ¬ ((data.pyGet "data" data).pyGet "url" v1).truthy = true
        · rw [if_pos hv] at h
          simp [pure, Except.pure] at h
        · rw [if_neg hv] at h
          have := Except.ok.inj h
          have h2 := Option.some.inj this
          rw [← h2]

theorem genericTail_title (T cover video_url images1 : JVal) (p : String) (r : PResult)
    (h : (if images1.truthy = true then
            (genericCoverFallback cover images1 >>= fun c' =>
              pure (some (⟨T, c', .null, images1, p, "images"⟩ : PResult)))
          else if ¬ video_url.truthy = true then pure none
          else pure (some (⟨T, cover, video_url, .arr [], p, "video"⟩ : PResult)))
         = Except.ok (some r)) :
    r.title = T := by
  by_cases hi : images1.truthy = true
  · rw [if_pos hi] at h
    rcases bind_ok h with ⟨c', -, h⟩
    have h2 := Option.some.inj (Except.ok.inj h)
    rw [← h2]
  · rw [if_neg hi] at h
    by_cases hv : ¬ video_url.truthy = true
    · rw [if_pos hv] at h
      simp [pure, Except.pure] at h
    · rw [if_neg hv] at h
      have h2 := Option.some.inj (Except.ok.inj h)
      rw [← h2]

theorem parseGenericV1_title (data : JVal) (p : String) (r : PResult)
    (h : parseGenericV1 data p = .ok (some r)) :
    r.title =
      (if (firstPresent (data.pyGet "data" data) ["title", "work_title", "desc"] (.str "")).truthy
       then firstPresent (data.pyGet "data" data) ["title", "work_title", "desc"] (.str "")
       else .str "未知标题") := by
  simp only [parseGenericV1] at h
  rcases bind_ok h with ⟨c0, -, h⟩
  by_cases hc : ¬ genericStatusOk (data.pyGet "status" c0) = true ∧
      data.jget "success" ≠ some (.bool true)
  · rw [if_pos hc] at h
    simp [pure, Except.pure] at h
  · rw [if_neg hc] at h
    rcases bind_ok h with ⟨-, -, h⟩
    rcases bind_ok h with ⟨t2, ht2, h⟩
    rcases bind_ok h with ⟨t1, ht1, h⟩
    rcases bind_ok h with ⟨c2, -, h⟩
    rcases bind_ok h with ⟨c1, -, h⟩
    rcases bind_ok h with ⟨v2, -, h⟩
    rcases bind_ok h with ⟨v1, -, h⟩
    rcases bind_ok h with ⟨i2, -, h⟩
    rcases bind_ok h with ⟨i1, -, h⟩
    have ht2' := mGet_ok ht2
    subst ht2'
    have ht1' := mGet_ok ht1
    subst ht1'
    by_cases hg : ¬ (((data.pyGet "data" data).pyGet "title"
          ((data.pyGet "data" data).pyGet "work_title"
            ((data.pyGet "data" data).pyGet "desc" (.str "")))).truthy = true ∨
        ((data.pyGet "data" data).pyGet "url" v1).truthy = true ∨
        ((data.pyGet "data" data).pyGet "images" i1).truthy = true)
    · rw [if_pos hg] at h
      simp [pure, Except.pure] at h
    · rw [if_neg hg] at h
      rcases bind_ok h with ⟨-, -, h⟩
      rw [← pyGet_chain3]
      exact genericTail_title _ _ _ _ _ r h

/-- A pearktrue body whose `title` key is present but empty while
`desc` holds a non-empty value. -/
def pearkEmptyTitle : JVal :=
  .obj [("code", .num 200),
        ("data", .obj [("title", .str ""), ("desc", .str "x"), ("url", .str "v")])]

/-- A pearktrue body whose `url` key is present but empty while
`video` holds a non-empty value. -/
def pearkEmptyUrl : JVal :=
  .obj [("code", .num 200),
        ("data", .obj [("title", .str "t"), ("url", .str ""), ("video", .str "http://v2")])]

/-- C5 (amended): each logical field is resolved by the first candidate
key *present* in the payload, regardless of whether its value is empty
— `d.get(k1, d.get(k2, …))` chains yield the first present key's value
(with only the final empty title replaced by the placeholder).  A
present-but-empty earlier key therefore shadows a later non-empty key:
an empty `title` with a non-empty `desc` yields the placeholder, and an
empty `url` with a non-empty `video` loses the video url entirely. -/
theorem C5_key_fallback :
    (∀ (d : JVal) (k1 k2 : String) (dflt : JVal),
      d.pyGet k1 (d.pyGet k2 dflt) = firstPresent d [k1, k2] dflt) ∧
    (∀ (d : JVal) (k1 k2 k3 : String) (dflt : JVal),
      d.pyGet k1 (d.pyGet k2 (d.pyGet k3 dflt)) = firstPresent d [k1, k2, k3] dflt) ∧
    (∀ data p r, parsePearktrue data p = .ok (some r) →
      r.title =
        (if (firstPresent (data.pyGet "data" data) ["title", "desc"] (.str "")).truthy
         then firstPresent (data.pyGet "data" data) ["title", "desc"] (.str "")
         else .str "未知标题")) ∧
    (∀ data p r, parseGenericV1 data p = .ok (some r) →
      r.title =
        (if (firstPresent (data.pyGet "data" data) ["title", "work_title", "desc"] (.str "")).truthy
         then firstPresent (data.pyGet "data" data) ["title", "work_title", "desc"] (.str "")
         else .str "未知标题")) ∧
    parsePearktrue pearkEmptyTitle "douyin" =
      .ok (some ⟨.str "未知标题", .str "", .str "v", .arr [], "douyin", "video"⟩) ∧
    parsePearktrue pearkEmptyUrl "douyin" = .ok none := by
  refine ⟨pyGet_chain2, pyGet_chain3, parsePearktrue_title, parseGenericV1_title, ?_, ?_⟩
  · decide
  · decide

/-- C5 as stated is false: with `title` present but empty and `desc`
holding the non-empty `"x"`, the pearktrue normaliser does not fall
through to `desc` — it keeps the empty title and emits the placeholder
instead of `"x"`. -/
theorem C5_counterexample :
    parsePearktrue pearkEmptyTitle "douyin" =
      .ok (some ⟨.str "未知标题", .str "", .str "v", .arr [], "douyin", "video"⟩) ∧
    (JVal.str "未知标题" ≠ .str "x") ∧
    ((pearkEmptyTitle.pyGet "data" pearkEmptyTitle).jget "desc" = some (.str "x")) := by
  refine ⟨by decide, by decide, by decide⟩

/-- Witness for C5 (amended): the pearktrue title lemma applied to the
payload with an empty `title` and non-empty `desc`. -/
theorem C5_key_fallback_witness :
    (⟨.str "未知标题", .str "", .str "v", .arr [], "douyin", "video"⟩ : PResult).title =
      (if (firstPresent (pearkEmptyTitle.pyGet "data" pearkEmptyTitle)
            ["title", "desc"] (.str "")).truthy
       then firstPresent (pearkEmptyTitle.pyGet "data" pearkEmptyTitle) ["title", "desc"] (.str "")
       else .str "未知标题") :=
  C5_key_fallback.2.2.1 pearkEmptyTitle "douyin" _ (by decide)

/-! ## C8: bounded deep search (`_deep_find`) versus the unbounded
`_find_photo` -/

/-- With fuel `0` (i.e. `depth > max_depth`) `_deep_find` inspects
nothing and returns `None`. -/
theorem deepFindF_zero (key : String) (obj : JVal) : deepFindF key 0 obj = none := by
  cases obj <;> rfl

/-- Scanning the pruned values of an object succeeds iff scanning the
original values does, given the inductive hypothesis for each value. -/
theorem firstSome_prune (key : String) (fuel : Nat)
    (ih : ∀ v, (deepFindF key fuel (pruneD 30 fuel v)).isSome
        = (deepFindF key fuel v).isSome) :
    ∀ fs : List (String × JVal),
      (firstSome (deepFindF key fuel) ((pruneFields 30 fuel fs).map Prod.snd)).isSome
        = (firstSome (deepFindF key fuel) (fs.map Prod.snd)).isSome := by
  intro fs
  induction fs with
  | nil => rfl
  | cons p rest ihf =>
    obtain ⟨k, v⟩ := p
    have h1 : firstSome (deepFindF key fuel)
        ((pruneFields 30 fuel ((k, v) :: rest)).map Prod.snd)
        = match deepFindF key fuel (pruneD 30 fuel v) with
          | some r => some r
          | none => firstSome (deepFindF key fuel)
              ((pruneFields 30 fuel rest).map Prod.snd) := rfl
    have h2 : firstSome (deepFindF key fuel) (((k, v) :: rest).map Prod.snd)
        = match deepFindF key fuel v with
          | some r => some r
          | none => firstSome (deepFindF key fuel) (rest.map Prod.snd) := rfl
    rw [h1, h2]
    have hiv := ih v
    cases hv : deepFindF key fuel v with
    | some r =>
      cases hv' : deepFindF key fuel (pruneD 30 fuel v) with
      | some r' => rfl
      | none => rw [hv, hv'] at hiv; simp at hiv
    | none =>
      cases hv' : deepFindF key fuel (pruneD 30 fuel v) with
      | some r' => rw [hv, hv'] at hiv; simp at hiv
      | none => exact ihf

/-- Scanning a pruned list under the same element budget succeeds iff
scanning the original list does, given the inductive hypothesis for each
element. -/
theorem firstSomeCapped_prune (key : String) (fuel : Nat)
    (ih : ∀ v, (deepFindF key fuel (pruneD 30 fuel v)).isSome
        = (deepFindF key fuel v).isSome) :
    ∀ (n : Nat) (xs : List JVal),
      (firstSomeCapped (deepFindF key fuel) n (pruneList 30 fuel n xs)).isSome
        = (firstSomeCapped (deepFindF key fuel) n xs).isSome := by
  intro n xs
  induction xs generalizing n with
  | nil => cases n <;> rfl
  | cons x rest ihx =>
    cases n with
    | zero => rfl
    | succ m =>
      have h1 : firstSomeCapped (deepFindF key fuel) (m + 1)
          (pruneList 30 fuel (m + 1) (x :: rest))
          = match deepFindF key fuel (pruneD 30 fuel x) with
            | some r => some r
            | none => firstSomeCapped (deepFindF key fuel) m
                (pruneList 30 fuel m rest) := rfl
      have h2 : firstSomeCapped (deepFindF key fuel) (m + 1) (x :: rest)
          = match deepFindF key fuel x with
            | some r => some r
            | none => firstSomeCapped (deepFindF key fuel) m rest := rfl
      rw [h1, h2]
      have hiv := ih x
      cases hv : deepFindF key fuel x with
      | some r =>
        cases hv' : deepFindF key fuel (pruneD 30 fuel x) with
        | some r' => rfl
        | none => rw [hv, hv'] at hiv; simp at hiv
      | none =>
        cases hv' : deepFindF key fuel (pruneD 30 fuel x) with
        | some r' => rw [hv, hv'] at hiv; simp at hiv
        | none => exact ihx m

/-- `_deep_find` cannot tell a tree from its pruning to the search's own
fuel with every list truncated to the 30-element budget: it never
inspects anything beyond those bounds. -/
theorem deepFindF_prune (key : String) :
    ∀ (fuel : Nat) (obj : JVal),
      (deepFindF key fuel (pruneD 30 fuel obj)).isSome
        = (deepFindF key fuel obj).isSome := by
  intro fuel
  induction fuel with
  | zero =>
    intro obj
    rw [deepFindF_zero, deepFindF_zero]
  | succ fuel ih =>
    intro obj
    cases obj with
    | null => rfl
    | bool b => rfl
    | num n => rfl
    | str s => rfl
    | obj fs =>
      have hany : ((pruneFields 30 fuel fs).any fun p => p.1 == key)
          = (fs.any fun p => p.1 == key) := by
        induction fs with
        | nil => rfl
        | cons p rest ihf =>
          obtain ⟨k, v⟩ := p
          simp [pruneFields, ihf]
      show ((if ((pruneFields 30 fuel fs).any fun p => p.1 == key) = true
             then some (.obj (pruneFields 30 fuel fs))
             else firstSome (deepFindF key fuel)
               ((pruneFields 30 fuel fs).map Prod.snd)).isSome)
          = ((if (fs.any fun p => p.1 == key) = true
             then some (.obj fs)
             else firstSome (deepFindF key fuel) (fs.map Prod.snd)).isSome)
      rw [hany]
      by_cases hk : (fs.any fun p => p.1 == key) = true
      · rw [if_pos hk, if_pos hk]
        rfl
      · rw [if_neg hk, if_neg hk]
        exact firstSome_prune key fuel ih fs
    | arr xs =>
      show (firstSomeCapped (deepFindF key fuel) 30 (pruneList 30 fuel 30 xs)).isSome
          = (firstSomeCapped (deepFindF key fuel) 30 xs).isSome
      exact firstSomeCapped_prune key fuel ih 30 xs

/-- `_find_photo` reaches the photo node however deeply it is nested. -/
theorem findPhoto_deepNest : ∀ d, findPhoto "p" (deepNest d) = some photoLeaf := by
  intro d
  induction d with
  | zero => rfl
  | succ n ih =>
    have h : findPhoto "p" (deepNest (n + 1))
        = match findPhoto "p" (deepNest n) with
          | some r => some r
          | none => findPhotoFields "p" ([] : List (String × JVal)) := rfl
    rw [h, ih]

/-- `_deep_find` with fuel `d` never reaches a node at depth `d`. -/
theorem deepFindF_deepNest : ∀ d, deepFindF "photoId" d (deepNest d) = none := by
  intro d
  induction d with
  | zero => rfl
  | succ n ih =>
    have h : deepFindF "photoId" (n + 1) (deepNest (n + 1))
        = match deepFindF "photoId" n (deepNest n) with
          | some r => some r
          | none => firstSome (deepFindF "photoId" n) ([] : List JVal) := rfl
    rw [h, ih]
    rfl

/-- `_find_photo` scans a list past any number of dummy entries. -/
theorem findPhotoList_replicate :
    ∀ n, findPhotoList "p" (List.replicate n (.num 0) ++ [photoLeaf]) = some photoLeaf := by
  intro n
  induction n with
  | zero => rfl
  | succ n ih =>
    have h : findPhotoList "p" (List.replicate (n + 1) (.num 0) ++ [photoLeaf])
        = findPhotoList "p" (List.replicate n (.num 0) ++ [photoLeaf]) := rfl
    rw [h, ih]

/-- A capped scan with budget `0` inspects nothing. -/
theorem firstSomeCapped_zero (f : JVal → Option JVal) (l : List JVal) :
    firstSomeCapped f 0 l = none := by
  cases l <;> rfl

/-- A capped scan whose budget is exhausted by dummy entries (on which
`f` yields nothing) never reaches the tail. -/
theorem firstSomeCapped_replicate (f : JVal → Option JVal) (hz : f (.num 0) = none) :
    ∀ cap n, cap ≤ n → ∀ l,
      firstSomeCapped f cap (List.replicate n (.num 0) ++ l) = none := by
  intro cap
  induction cap with
  | zero =>
    intro n _ l
    exact firstSomeCapped_zero f _
  | succ c ih =>
    intro n hn l
    cases n with
    | zero => exact absurd hn (by omega)
    | succ m =>
      have h : firstSomeCapped f (c + 1) (List.replicate (m + 1) (.num 0) ++ l)
          = match f (.num 0) with
            | some r => some r
            | none => firstSomeCapped f c (List.replicate m (.num 0) ++ l) := rfl
      rw [h, hz]
      exact ih m (by omega) l

/-- C8 as stated is false for `_find_photo`: it reaches a hit nested 9
levels deep — beyond the largest configured depth bound (8) — where the
bounded `_deep_find` at `max_depth = 8` sees nothing, and it reaches a
hit at list index 55 — beyond the largest configured element-count bound
(50). -/
theorem C8_counterexample :
    findPhoto "p" (deepNest 9) = some photoLeaf ∧
    deepFind (deepNest 9) "photoId" 8 0 = none ∧
    findPhoto "p" (wideAt 55) = some photoLeaf := by
  refine ⟨by decide, by decide, by decide⟩

/-- C8 (amended): `BrowserParser._deep_find` is genuinely bounded — it
returns `None` immediately once `depth > max_depth`, and pruning the
input tree to the search's own fuel depth with every list truncated to
its 30-element budget never changes whether the search succeeds, so no
node beyond the configured bounds is ever inspected.  But
`KuaishouParser._find_photo` is unbounded (it terminates on every finite
tree only because its input is finite): for every depth bound `d` it
finds a hit nested `d + 1` levels deep where the bounded search with
fuel for depth `d` sees nothing, and for every width bound `n ≥ 30` it
finds a hit past the first `n` list elements, which the bounded search's
30-element cap never reaches. -/
theorem C8_bounded_search :
    (∀ (key : String) (maxD depth : Nat) (obj : JVal), maxD < depth →
        deepFind obj key maxD depth = none) ∧
    (∀ (key : String) (maxD : Nat) (obj : JVal),
        (deepFind (pruneD 30 (maxD + 1) obj) key maxD 0).isSome
          = (deepFind obj key maxD 0).isSome) ∧
    (∀ d : Nat, findPhoto "p" (deepNest (d + 1)) = some photoLeaf ∧
        deepFind (deepNest (d + 1)) "photoId" d 0 = none) ∧
    (∀ n : Nat, 30 ≤ n → findPhoto "p" (wideAt n) = some photoLeaf ∧
        deepFind (wideAt n) "photoId" 4 0 = none) := by
  refine ⟨?_, ?_, ?_, ?_⟩
  · intro key maxD depth obj h
    show deepFindF key (maxD + 1 - depth) obj = none
    have h0 : maxD + 1 - depth = 0 := by omega
    rw [h0]
    exact deepFindF_zero key obj
  · intro key maxD obj
    exact deepFindF_prune key (maxD + 1) obj
  · intro d
    exact ⟨findPhoto_deepNest (d + 1), deepFindF_deepNest (d + 1)⟩
  · intro n hn
    exact ⟨findPhotoList_replicate n,
      firstSomeCapped_replicate (deepFindF "photoId" 4) rfl 30 n hn [photoLeaf]⟩

/-- Witness for C8 (amended): the beyond-depth clause at `max_depth = 4`,
`depth = 9`, and the width clause at 30 dummy entries. -/
theorem C8_bounded_search_witness :
    4 < 9 ∧ deepFind (.obj [("a", .num 1)]) "k" 4 9 = none ∧
    30 ≤ 30 ∧ (findPhoto "p" (wideAt 30) = some photoLeaf ∧
      deepFind (wideAt 30) "photoId" 4 0 = none) :=
  ⟨by decide, C8_bounded_search.1 "k" 4 9 (.obj [("a", .num 1)]) (by decide),
   by decide, C8_bounded_search.2.2.2 30 (by decide)⟩
